import Mathlib

/-!
Verification of the VMFS reader (dissect.vmfs) against its natural-language
specification.  Machine integers are modelled as `Nat` with explicit masking,
mirroring the Python source, which operates on unbounded integers and applies
bit masks itself.
-/

set_option maxRecDepth 4096

/-! ## Address codec (src/dissect/vmfs/address.py) -/

/-- Address type is encoded in the lower 3 bits. -/
def address_type (address : Nat) : Nat :=
  address &&& 0b111

namespace FileBlockAddr

/-- VMFS5 FB address: parse the block number. -/
def parse (address : Nat) : Nat :=
  (address >>> 6) &&& 0x3FFFFFF

/-- Create a VMFS5 FB address from a block. -/
def make (block : Nat) (cow : Nat := 0) (tbz : Nat := 0) : Nat :=
  1 ||| ((cow &&& 0x1) <<< 4) ||| ((tbz &&& 0x1) <<< 5) ||| ((block &&& 0x3FFFFFF) <<< 6)

/-- The copy-on-write flag of a VMFS5 FB address. -/
def cow (value : Nat) : Nat :=
  (value >>> 4) &&& 0x1

/-- The to-be-zeroed flag of a VMFS5 FB address. -/
def tbz (value : Nat) : Nat :=
  (value >>> 5) &&& 0x1

end FileBlockAddr

namespace SmallFileBlockAddr

/-- VMFS6 SFB address: parse the cluster and resource. -/
def parse (address : Nat) : Nat × Nat :=
  ((address >>> 15) &&& 0x7FFFFFFF, (address >>> 51) &&& 0x1FFF)

/-- Create a VMFS6 SFB address from a cluster and resource. -/
def make (cluster resource : Nat) (cow : Nat := 0) (tbz : Nat := 0) : Nat :=
  1 ||| ((cow &&& 0x1) <<< 5) ||| ((tbz &&& 0xFF) <<< 7) ||| ((cluster &&& 0x7FFFFFFF) <<< 15)
    ||| ((resource &&& 0x1FFF) <<< 51)

/-- The copy-on-write flag of a VMFS6 SFB address. -/
def cow (value : Nat) : Nat :=
  (value >>> 5) &&& 0x1

/-- The to-be-zeroed bitmap of a VMFS6 SFB address. -/
def tbz (value : Nat) : Nat :=
  (value >>> 7) &&& 0xFF

end SmallFileBlockAddr

namespace SubBlockAddr

/-- VMFS5 SB address: parse the cluster and resource (optionally in dense mode). -/
def parse (address : Nat) (dense : Bool := false) : Nat × Nat :=
  let cluster := (address >>> 6) &&& 0x3FFFFF
  let resource := (address >>> 28) &&& 0xF
  if dense then (cluster, resource ||| ((address &&& 0b11000) <<< 1)) else (cluster, resource)

/-- Create a VMFS5 SB address from a cluster and resource. -/
def make (cluster resource : Nat) (cow : Nat := 0) : Nat :=
  2 ||| ((cow &&& 0x1) <<< 5) ||| ((cluster &&& 0x3FFFFF) <<< 6) ||| ((resource &&& 0xF) <<< 28)

/-- The copy-on-write flag of a VMFS5 SB address. -/
def cow (value : Nat) : Nat :=
  (value >>> 5) &&& 0x1

end SubBlockAddr

namespace SubBlockAddr64

/-- VMFS6 SB address: parse the cluster and resource. -/
def parse (address : Nat) : Nat × Nat :=
  ((address >>> 6) &&& 0xFFFFFFFFF, (address >>> 56) &&& 0xFF)

/-- Create a VMFS6 SB address from a cluster and resource. -/
def make (cluster resource : Nat) (cow : Nat := 0) : Nat :=
  2 ||| ((cow &&& 0x1) <<< 5) ||| ((cluster &&& 0xFFFFFFFFF) <<< 6) ||| ((resource &&& 0xFF) <<< 56)

/-- The copy-on-write flag of a VMFS6 SB address. -/
def cow (value : Nat) : Nat :=
  (value >>> 5) &&& 0x1

end SubBlockAddr64

namespace PointerBlockAddr

/-- VMFS5 PB address: parse the cluster and resource. -/
def parse (address : Nat) : Nat × Nat :=
  ((address >>> 6) &&& 0x3FFFFF, (address >>> 28) &&& 0xF)

/-- Create a VMFS5 PB address from a cluster and resource. -/
def make (cluster resource : Nat) (cow : Nat := 0) : Nat :=
  3 ||| ((cow &&& 0x1) <<< 5) ||| ((cluster &&& 0x3FFFFF) <<< 6) ||| ((resource &&& 0xF) <<< 28)

/-- The copy-on-write flag of a VMFS5 PB address. -/
def cow (value : Nat) : Nat :=
  (value >>> 5) &&& 0x1

end PointerBlockAddr

namespace PointerBlockAddr64

/-- VMFS6 PB address: parse the cluster and resource. -/
def parse (address : Nat) : Nat × Nat :=
  ((address >>> 6) &&& 0xFFFFFFFFF, (address >>> 56) &&& 0xFF)

/-- Create a VMFS6 PB address from a cluster and resource. -/
def make (cluster resource : Nat) (cow : Nat := 0) : Nat :=
  3 ||| ((cow &&& 0x1) <<< 5) ||| ((cluster &&& 0xFFFFFFFFF) <<< 6) ||| ((resource &&& 0xFF) <<< 56)

/-- The copy-on-write flag of a VMFS6 PB address. -/
def cow (value : Nat) : Nat :=
  (value >>> 5) &&& 0x1

end PointerBlockAddr64

namespace PointerBlock2Addr

/-- VMFS5 PB2 address: same encoding as PB, but with type tag 5. -/
def make (cluster resource : Nat) (cow : Nat := 0) : Nat :=
  5 ||| ((cow &&& 0x1) <<< 5) ||| ((cluster &&& 0x3FFFFF) <<< 6) ||| ((resource &&& 0xF) <<< 28)

end PointerBlock2Addr

namespace PointerBlock2Addr64

/-- VMFS6 PB2 address: same encoding as 64-bit PB, but with type tag 5. -/
def make (cluster resource : Nat) (cow : Nat := 0) : Nat :=
  5 ||| ((cow &&& 0x1) <<< 5) ||| ((cluster &&& 0xFFFFFFFFF) <<< 6) ||| ((resource &&& 0xFF) <<< 56)

end PointerBlock2Addr64

namespace FileDescriptorAddr

/-- FD address: parse the cluster and resource. -/
def parse (address : Nat) : Nat × Nat :=
  ((address >>> 6) &&& 0xFFFF, (address >>> 22) &&& 0x3FF)

/-- Create a FD address from a cluster and resource. -/
def make (cluster resource : Nat) : Nat :=
  4 ||| ((cluster &&& 0xFFFF) <<< 6) ||| ((resource &&& 0x3FF) <<< 22)

end FileDescriptorAddr

namespace JournalBlockAddr

/-- JB address: parse the cluster and resource. -/
def parse (address : Nat) : Nat × Nat :=
  ((address >>> 3) &&& 0x1FFF, (address >>> 26) &&& 0x3F)

/-- Create a JB address from a cluster and resource. -/
def make (cluster resource : Nat) : Nat :=
  6 ||| ((cluster &&& 0x1FFF) <<< 3) ||| ((resource &&& 0x3F) <<< 26)

end JournalBlockAddr

namespace LargeFileBlockAddr

/-- LFB address: parse the block number. -/
def parse (address : Nat) : Nat :=
  (address >>> 15) &&& 0x7FFFFFFF

/-- Create a LFB address from a block. -/
def make (block : Nat) (cow : Nat := 0) (tbz : Nat := 0) : Nat :=
  7 ||| ((cow &&& 0x1) <<< 5) ||| ((tbz &&& 0xFF) <<< 7) ||| ((block &&& 0x7FFFFFFF) <<< 15)

/-- The copy-on-write flag of a LFB address. -/
def cow (value : Nat) : Nat :=
  (value >>> 5) &&& 0x1

/-- The to-be-zeroed bitmap of a LFB address. -/
def tbz (value : Nat) : Nat :=
  (value >>> 7) &&& 0xFF

end LargeFileBlockAddr

/-! ## Bitwise helper lemmas -/

/-- Bitwise or of a shifted value with a small remainder is addition. -/
theorem lor_mul_pow_eq_add {b : Nat} {n : Nat} (a : Nat) (hb : b < 2 ^ n) :
    b ||| a * 2 ^ n = a * 2 ^ n + b := by
  rw [Nat.lor_comm, Nat.mul_comm]
  exact (Nat.mul_add_lt_is_or hb a).symm

/-- Masking with a bit mask that covers a given sub-mask shifted into place does not
change the bits extracted through that sub-mask. -/
theorem shiftRight_and_of_and_shiftLeft (a M m s : Nat) (h : (m <<< s) &&& M = m <<< s) :
    ((a &&& M) >>> s) &&& m = (a >>> s) &&& m := by
  apply Nat.eq_of_testBit_eq
  intro i
  have hm : m.testBit i = true → M.testBit (s + i) = true := by
    have := congrArg (fun x => Nat.testBit x (s + i)) h
    simpa [Nat.testBit_and, Nat.testBit_shiftLeft, Nat.le_add_right, Nat.add_sub_cancel_left]
      using this
  simp only [Nat.testBit_and, Nat.testBit_shiftRight]
  cases h1 : Nat.testBit m i with
  | false => simp
  | true => simp [hm h1]

/-- Masking with a bit mask that covers a given sub-mask does not change the bits
extracted through that sub-mask. -/
theorem and_and_of_and_eq (a M m : Nat) (h : m &&& M = m) :
    (a &&& M) &&& m = a &&& m := by
  apply Nat.eq_of_testBit_eq
  intro i
  have hm : m.testBit i = true → M.testBit i = true := by
    have := congrArg (fun x => Nat.testBit x i) h
    simpa [Nat.testBit_and] using this
  simp only [Nat.testBit_and]
  cases h1 : Nat.testBit m i with
  | false => simp
  | true => simp [hm h1]

/-! ## Arithmetic normal forms of the address constructors -/

/-- VMFS5 FB make, as plain arithmetic. -/
theorem fb_make_eq (block cow tbz : Nat) :
    FileBlockAddr.make block cow tbz
      = (block % 67108864) * 64 + (tbz % 2) * 32 + (cow % 2) * 16 + 1 := by
  unfold FileBlockAddr.make
  rw [show (0x3FFFFFF : Nat) = 2 ^ 26 - 1 from by norm_num]
  simp only [Nat.and_pow_two_sub_one_eq_mod, Nat.and_one_is_mod, Nat.shiftLeft_eq]
  rw [lor_mul_pow_eq_add (n := 4) _ (by norm_num),
      lor_mul_pow_eq_add (n := 5) _ (by omega),
      lor_mul_pow_eq_add (n := 6) _ (by omega)]
  norm_num
  omega

/-- VMFS6 SFB make, as plain arithmetic. -/
theorem sfb_make_eq (cluster resource cow tbz : Nat) :
    SmallFileBlockAddr.make cluster resource cow tbz
      = (resource % 8192) * 2251799813685248 + (cluster % 2147483648) * 32768
        + (tbz % 256) * 128 + (cow % 2) * 32 + 1 := by
  unfold SmallFileBlockAddr.make
  rw [show (0xFF : Nat) = 2 ^ 8 - 1 from by norm_num,
      show (0x7FFFFFFF : Nat) = 2 ^ 31 - 1 from by norm_num,
      show (0x1FFF : Nat) = 2 ^ 13 - 1 from by norm_num]
  simp only [Nat.and_pow_two_sub_one_eq_mod, Nat.and_one_is_mod, Nat.shiftLeft_eq]
  rw [lor_mul_pow_eq_add (n := 5) _ (by norm_num),
      lor_mul_pow_eq_add (n := 7) _ (by omega),
      lor_mul_pow_eq_add (n := 15) _ (by omega),
      lor_mul_pow_eq_add (n := 51) _ (by omega)]
  norm_num
  omega

/-- VMFS5 SB make, as plain arithmetic. -/
theorem sb_make_eq (cluster resource cow : Nat) :
    SubBlockAddr.make cluster resource cow
      = (resource % 16) * 268435456 + (cluster % 4194304) * 64 + (cow % 2) * 32 + 2 := by
  unfold SubBlockAddr.make
  rw [show (0x3FFFFF : Nat) = 2 ^ 22 - 1 from by norm_num,
      show (0xF : Nat) = 2 ^ 4 - 1 from by norm_num]
  simp only [Nat.and_pow_two_sub_one_eq_mod, Nat.and_one_is_mod, Nat.shiftLeft_eq]
  rw [lor_mul_pow_eq_add (n := 5) _ (by norm_num),
      lor_mul_pow_eq_add (n := 6) _ (by omega),
      lor_mul_pow_eq_add (n := 28) _ (by omega)]
  norm_num
  omega

/-- VMFS6 SB make, as plain arithmetic. -/
theorem sb64_make_eq (cluster resource cow : Nat) :
    SubBlockAddr64.make cluster resource cow
      = (resource % 256) * 72057594037927936 + (cluster % 68719476736) * 64
        + (cow % 2) * 32 + 2 := by
  unfold SubBlockAddr64.make
  rw [show (0xFFFFFFFFF : Nat) = 2 ^ 36 - 1 from by norm_num,
      show (0xFF : Nat) = 2 ^ 8 - 1 from by norm_num]
  simp only [Nat.and_pow_two_sub_one_eq_mod, Nat.and_one_is_mod, Nat.shiftLeft_eq]
  rw [lor_mul_pow_eq_add (n := 5) _ (by norm_num),
      lor_mul_pow_eq_add (n := 6) _ (by omega),
      lor_mul_pow_eq_add (n := 56) _ (by omega)]
  norm_num
  omega

/-- VMFS5 PB make, as plain arithmetic. -/
theorem pb_make_eq (cluster resource cow : Nat) :
    PointerBlockAddr.make cluster resource cow
      = (resource % 16) * 268435456 + (cluster % 4194304) * 64 + (cow % 2) * 32 + 3 := by
  unfold PointerBlockAddr.make
  rw [show (0x3FFFFF : Nat) = 2 ^ 22 - 1 from by norm_num,
      show (0xF : Nat) = 2 ^ 4 - 1 from by norm_num]
  simp only [Nat.and_pow_two_sub_one_eq_mod, Nat.and_one_is_mod, Nat.shiftLeft_eq]
  rw [lor_mul_pow_eq_add (n := 5) _ (by norm_num),
      lor_mul_pow_eq_add (n := 6) _ (by omega),
      lor_mul_pow_eq_add (n := 28) _ (by omega)]
  norm_num
  omega

/-- VMFS6 PB make, as plain arithmetic. -/
theorem pb64_make_eq (cluster resource cow : Nat) :
    PointerBlockAddr64.make cluster resource cow
      = (resource % 256) * 72057594037927936 + (cluster % 68719476736) * 64
        + (cow % 2) * 32 + 3 := by
  unfold PointerBlockAddr64.make
  rw [show (0xFFFFFFFFF : Nat) = 2 ^ 36 - 1 from by norm_num,
      show (0xFF : Nat) = 2 ^ 8 - 1 from by norm_num]
  simp only [Nat.and_pow_two_sub_one_eq_mod, Nat.and_one_is_mod, Nat.shiftLeft_eq]
  rw [lor_mul_pow_eq_add (n := 5) _ (by norm_num),
      lor_mul_pow_eq_add (n := 6) _ (by omega),
      lor_mul_pow_eq_add (n := 56) _ (by omega)]
  norm_num
  omega

/-- VMFS5 PB2 make, as plain arithmetic. -/
theorem pb2_make_eq (cluster resource cow : Nat) :
    PointerBlock2Addr.make cluster resource cow
      = (resource % 16) * 268435456 + (cluster % 4194304) * 64 + (cow % 2) * 32 + 5 := by
  unfold PointerBlock2Addr.make
  rw [show (0x3FFFFF : Nat) = 2 ^ 22 - 1 from by norm_num,
      show (0xF : Nat) = 2 ^ 4 - 1 from by norm_num]
  simp only [Nat.and_pow_two_sub_one_eq_mod, Nat.and_one_is_mod, Nat.shiftLeft_eq]
  rw [lor_mul_pow_eq_add (n := 5) _ (by norm_num),
      lor_mul_pow_eq_add (n := 6) _ (by omega),
      lor_mul_pow_eq_add (n := 28) _ (by omega)]
  norm_num
  omega

/-- VMFS6 PB2 make, as plain arithmetic. -/
theorem pb264_make_eq (cluster resource cow : Nat) :
    PointerBlock2Addr64.make cluster resource cow
      = (resource % 256) * 72057594037927936 + (cluster % 68719476736) * 64
        + (cow % 2) * 32 + 5 := by
  unfold PointerBlock2Addr64.make
  rw [show (0xFFFFFFFFF : Nat) = 2 ^ 36 - 1 from by norm_num,
      show (0xFF : Nat) = 2 ^ 8 - 1 from by norm_num]
  simp only [Nat.and_pow_two_sub_one_eq_mod, Nat.and_one_is_mod, Nat.shiftLeft_eq]
  rw [lor_mul_pow_eq_add (n := 5) _ (by norm_num),
      lor_mul_pow_eq_add (n := 6) _ (by omega),
      lor_mul_pow_eq_add (n := 56) _ (by omega)]
  norm_num
  omega

/-- FD make, as plain arithmetic. -/
theorem fd_make_eq (cluster resource : Nat) :
    FileDescriptorAddr.make cluster resource
      = (resource % 1024) * 4194304 + (cluster % 65536) * 64 + 4 := by
  unfold FileDescriptorAddr.make
  rw [show (0xFFFF : Nat) = 2 ^ 16 - 1 from by norm_num,
      show (0x3FF : Nat) = 2 ^ 10 - 1 from by norm_num]
  simp only [Nat.and_pow_two_sub_one_eq_mod, Nat.shiftLeft_eq]
  rw [lor_mul_pow_eq_add (n := 6) _ (by norm_num),
      lor_mul_pow_eq_add (n := 22) _ (by omega)]
  norm_num
  omega

/-- JB make, as plain arithmetic. -/
theorem jb_make_eq (cluster resource : Nat) :
    JournalBlockAddr.make cluster resource
      = (resource % 64) * 67108864 + (cluster % 8192) * 8 + 6 := by
  unfold JournalBlockAddr.make
  rw [show (0x1FFF : Nat) = 2 ^ 13 - 1 from by norm_num,
      show (0x3F : Nat) = 2 ^ 6 - 1 from by norm_num]
  simp only [Nat.and_pow_two_sub_one_eq_mod, Nat.shiftLeft_eq]
  rw [lor_mul_pow_eq_add (n := 3) _ (by norm_num),
      lor_mul_pow_eq_add (n := 26) _ (by omega)]
  norm_num
  omega

/-- LFB make, as plain arithmetic. -/
theorem lfb_make_eq (block cow tbz : Nat) :
    LargeFileBlockAddr.make block cow tbz
      = (block % 2147483648) * 32768 + (tbz % 256) * 128 + (cow % 2) * 32 + 7 := by
  unfold LargeFileBlockAddr.make
  rw [show (0xFF : Nat) = 2 ^ 8 - 1 from by norm_num,
      show (0x7FFFFFFF : Nat) = 2 ^ 31 - 1 from by norm_num]
  simp only [Nat.and_pow_two_sub_one_eq_mod, Nat.and_one_is_mod, Nat.shiftLeft_eq]
  rw [lor_mul_pow_eq_add (n := 5) _ (by norm_num),
      lor_mul_pow_eq_add (n := 7) _ (by omega),
      lor_mul_pow_eq_add (n := 15) _ (by omega)]
  norm_num
  omega

/-! ## Per-kind round-trip lemmas -/

theorem fb_roundtrip (block cow tbz : Nat)
    (hb : block < 67108864) (hc : cow < 2) (ht : tbz < 2) :
    FileBlockAddr.parse (FileBlockAddr.make block cow tbz) = block
      ∧ FileBlockAddr.cow (FileBlockAddr.make block cow tbz) = cow
      ∧ FileBlockAddr.tbz (FileBlockAddr.make block cow tbz) = tbz
      ∧ address_type (FileBlockAddr.make block cow tbz) = 1 := by
  unfold FileBlockAddr.parse FileBlockAddr.cow FileBlockAddr.tbz address_type
  rw [fb_make_eq,
      show (0x3FFFFFF : Nat) = 2 ^ 26 - 1 from by norm_num,
      show (0b111 : Nat) = 2 ^ 3 - 1 from by norm_num]
  simp only [Nat.and_pow_two_sub_one_eq_mod, Nat.and_one_is_mod, Nat.shiftRight_eq_div_pow]
  norm_num
  omega

theorem sfb_roundtrip (cluster resource cow tbz : Nat)
    (hc : cluster < 2147483648) (hr : resource < 8192) (hcow : cow < 2) (htbz : tbz < 256) :
    SmallFileBlockAddr.parse (SmallFileBlockAddr.make cluster resource cow tbz)
        = (cluster, resource)
      ∧ SmallFileBlockAddr.cow (SmallFileBlockAddr.make cluster resource cow tbz) = cow
      ∧ SmallFileBlockAddr.tbz (SmallFileBlockAddr.make cluster resource cow tbz) = tbz
      ∧ address_type (SmallFileBlockAddr.make cluster resource cow tbz) = 1 := by
  unfold SmallFileBlockAddr.parse SmallFileBlockAddr.cow SmallFileBlockAddr.tbz address_type
  rw [sfb_make_eq,
      show (0x7FFFFFFF : Nat) = 2 ^ 31 - 1 from by norm_num,
      show (0x1FFF : Nat) = 2 ^ 13 - 1 from by norm_num,
      show (0xFF : Nat) = 2 ^ 8 - 1 from by norm_num,
      show (0b111 : Nat) = 2 ^ 3 - 1 from by norm_num]
  simp only [Nat.and_pow_two_sub_one_eq_mod, Nat.and_one_is_mod, Nat.shiftRight_eq_div_pow,
    Prod.mk.injEq]
  norm_num
  omega

theorem sb_roundtrip (cluster resource cow : Nat)
    (hc : cluster < 4194304) (hr : resource < 16) (hcow : cow < 2) :
    SubBlockAddr.parse (SubBlockAddr.make cluster resource cow) = (cluster, resource)
      ∧ SubBlockAddr.cow (SubBlockAddr.make cluster resource cow) = cow
      ∧ address_type (SubBlockAddr.make cluster resource cow) = 2 := by
  unfold SubBlockAddr.parse SubBlockAddr.cow address_type
  rw [sb_make_eq,
      show (0x3FFFFF : Nat) = 2 ^ 22 - 1 from by norm_num,
      show (0xF : Nat) = 2 ^ 4 - 1 from by norm_num,
      show (0b111 : Nat) = 2 ^ 3 - 1 from by norm_num]
  simp only [Nat.and_pow_two_sub_one_eq_mod, Nat.and_one_is_mod, Nat.shiftRight_eq_div_pow,
    Prod.mk.injEq, Bool.false_eq_true, if_false]
  norm_num
  omega

theorem sb64_roundtrip (cluster resource cow : Nat)
    (hc : cluster < 68719476736) (hr : resource < 256) (hcow : cow < 2) :
    SubBlockAddr64.parse (SubBlockAddr64.make cluster resource cow) = (cluster, resource)
      ∧ SubBlockAddr64.cow (SubBlockAddr64.make cluster resource cow) = cow
      ∧ address_type (SubBlockAddr64.make cluster resource cow) = 2 := by
  unfold SubBlockAddr64.parse SubBlockAddr64.cow address_type
  rw [sb64_make_eq,
      show (0xFFFFFFFFF : Nat) = 2 ^ 36 - 1 from by norm_num,
      show (0xFF : Nat) = 2 ^ 8 - 1 from by norm_num,
      show (0b111 : Nat) = 2 ^ 3 - 1 from by norm_num]
  simp only [Nat.and_pow_two_sub_one_eq_mod, Nat.and_one_is_mod, Nat.shiftRight_eq_div_pow,
    Prod.mk.injEq]
  norm_num
  omega

theorem pb_roundtrip (cluster resource cow : Nat)
    (hc : cluster < 4194304) (hr : resource < 16) (hcow : cow < 2) :
    PointerBlockAddr.parse (PointerBlockAddr.make cluster resource cow) = (cluster, resource)
      ∧ PointerBlockAddr.cow (PointerBlockAddr.make cluster resource cow) = cow
      ∧ address_type (PointerBlockAddr.make cluster resource cow) = 3 := by
  unfold PointerBlockAddr.parse PointerBlockAddr.cow address_type
  rw [pb_make_eq,
      show (0x3FFFFF : Nat) = 2 ^ 22 - 1 from by norm_num,
      show (0xF : Nat) = 2 ^ 4 - 1 from by norm_num,
      show (0b111 : Nat) = 2 ^ 3 - 1 from by norm_num]
  simp only [Nat.and_pow_two_sub_one_eq_mod, Nat.and_one_is_mod, Nat.shiftRight_eq_div_pow,
    Prod.mk.injEq]
  norm_num
  omega

theorem pb64_roundtrip (cluster resource cow : Nat)
    (hc : cluster < 68719476736) (hr : resource < 256) (hcow : cow < 2) :
    PointerBlockAddr64.parse (PointerBlockAddr64.make cluster resource cow) = (cluster, resource)
      ∧ PointerBlockAddr64.cow (PointerBlockAddr64.make cluster resource cow) = cow
      ∧ address_type (PointerBlockAddr64.make cluster resource cow) = 3 := by
  unfold PointerBlockAddr64.parse PointerBlockAddr64.cow address_type
  rw [pb64_make_eq,
      show (0xFFFFFFFFF : Nat) = 2 ^ 36 - 1 from by norm_num,
      show (0xFF : Nat) = 2 ^ 8 - 1 from by norm_num,
      show (0b111 : Nat) = 2 ^ 3 - 1 from by norm_num]
  simp only [Nat.and_pow_two_sub_one_eq_mod, Nat.and_one_is_mod, Nat.shiftRight_eq_div_pow,
    Prod.mk.injEq]
  norm_num
  omega

theorem pb2_roundtrip (cluster resource cow : Nat)
    (hc : cluster < 4194304) (hr : resource < 16) (hcow : cow < 2) :
    PointerBlockAddr.parse (PointerBlock2Addr.make cluster resource cow) = (cluster, resource)
      ∧ PointerBlockAddr.cow (PointerBlock2Addr.make cluster resource cow) = cow
      ∧ address_type (PointerBlock2Addr.make cluster resource cow) = 5 := by
  unfold PointerBlockAddr.parse PointerBlockAddr.cow address_type
  rw [pb2_make_eq,
      show (0x3FFFFF : Nat) = 2 ^ 22 - 1 from by norm_num,
      show (0xF : Nat) = 2 ^ 4 - 1 from by norm_num,
      show (0b111 : Nat) = 2 ^ 3 - 1 from by norm_num]
  simp only [Nat.and_pow_two_sub_one_eq_mod, Nat.and_one_is_mod, Nat.shiftRight_eq_div_pow,
    Prod.mk.injEq]
  norm_num
  omega

theorem pb264_roundtrip (cluster resource cow : Nat)
    (hc : cluster < 68719476736) (hr : resource < 256) (hcow : cow < 2) :
    PointerBlockAddr64.parse (PointerBlock2Addr64.make cluster resource cow) = (cluster, resource)
      ∧ PointerBlockAddr64.cow (PointerBlock2Addr64.make cluster resource cow) = cow
      ∧ address_type (PointerBlock2Addr64.make cluster resource cow) = 5 := by
  unfold PointerBlockAddr64.parse PointerBlockAddr64.cow address_type
  rw [pb264_make_eq,
      show (0xFFFFFFFFF : Nat) = 2 ^ 36 - 1 from by norm_num,
      show (0xFF : Nat) = 2 ^ 8 - 1 from by norm_num,
      show (0b111 : Nat) = 2 ^ 3 - 1 from by norm_num]
  simp only [Nat.and_pow_two_sub_one_eq_mod, Nat.and_one_is_mod, Nat.shiftRight_eq_div_pow,
    Prod.mk.injEq]
  norm_num
  omega

theorem fd_roundtrip (cluster resource : Nat) (hc : cluster < 65536) (hr : resource < 1024) :
    FileDescriptorAddr.parse (FileDescriptorAddr.make cluster resource) = (cluster, resource)
      ∧ address_type (FileDescriptorAddr.make cluster resource) = 4 := by
  unfold FileDescriptorAddr.parse address_type
  rw [fd_make_eq,
      show (0xFFFF : Nat) = 2 ^ 16 - 1 from by norm_num,
      show (0x3FF : Nat) = 2 ^ 10 - 1 from by norm_num,
      show (0b111 : Nat) = 2 ^ 3 - 1 from by norm_num]
  simp only [Nat.and_pow_two_sub_one_eq_mod, Nat.shiftRight_eq_div_pow, Prod.mk.injEq]
  norm_num
  omega

theorem jb_roundtrip (cluster resource : Nat) (hc : cluster < 8192) (hr : resource < 64) :
    JournalBlockAddr.parse (JournalBlockAddr.make cluster resource) = (cluster, resource)
      ∧ address_type (JournalBlockAddr.make cluster resource) = 6 := by
  unfold JournalBlockAddr.parse address_type
  rw [jb_make_eq,
      show (0x1FFF : Nat) = 2 ^ 13 - 1 from by norm_num,
      show (0x3F : Nat) = 2 ^ 6 - 1 from by norm_num,
      show (0b111 : Nat) = 2 ^ 3 - 1 from by norm_num]
  simp only [Nat.and_pow_two_sub_one_eq_mod, Nat.shiftRight_eq_div_pow, Prod.mk.injEq]
  norm_num
  omega

theorem lfb_roundtrip (block cow tbz : Nat)
    (hb : block < 2147483648) (hc : cow < 2) (ht : tbz < 2) :
    LargeFileBlockAddr.parse (LargeFileBlockAddr.make block cow tbz) = block
      ∧ LargeFileBlockAddr.cow (LargeFileBlockAddr.make block cow tbz) = cow
      ∧ LargeFileBlockAddr.tbz (LargeFileBlockAddr.make block cow tbz) = tbz
      ∧ address_type (LargeFileBlockAddr.make block cow tbz) = 7 := by
  unfold LargeFileBlockAddr.parse LargeFileBlockAddr.cow LargeFileBlockAddr.tbz address_type
  rw [lfb_make_eq,
      show (0x7FFFFFFF : Nat) = 2 ^ 31 - 1 from by norm_num,
      show (0xFF : Nat) = 2 ^ 8 - 1 from by norm_num,
      show (0b111 : Nat) = 2 ^ 3 - 1 from by norm_num]
  simp only [Nat.and_pow_two_sub_one_eq_mod, Nat.and_one_is_mod, Nat.shiftRight_eq_div_pow]
  norm_num
  omega

/-! ## Claim theorems for the address codec -/

/-- C3: For each address kind and every in-range field tuple, parse(make(...)) returns the
fields, the flag accessors return the flags passed to make, and the low 3 bits of the made
address equal the kind tag. -/
theorem c3_address_roundtrip :
    (∀ block cow tbz : Nat, block < 2 ^ 26 → cow < 2 → tbz < 2 →
      FileBlockAddr.parse (FileBlockAddr.make block cow tbz) = block
        ∧ FileBlockAddr.cow (FileBlockAddr.make block cow tbz) = cow
        ∧ FileBlockAddr.tbz (FileBlockAddr.make block cow tbz) = tbz
        ∧ address_type (FileBlockAddr.make block cow tbz) = 1)
    ∧ (∀ cluster resource cow tbz : Nat,
        cluster < 2 ^ 31 → resource < 2 ^ 13 → cow < 2 → tbz < 2 ^ 8 →
      SmallFileBlockAddr.parse (SmallFileBlockAddr.make cluster resource cow tbz)
          = (cluster, resource)
        ∧ SmallFileBlockAddr.cow (SmallFileBlockAddr.make cluster resource cow tbz) = cow
        ∧ SmallFileBlockAddr.tbz (SmallFileBlockAddr.make cluster resource cow tbz) = tbz
        ∧ address_type (SmallFileBlockAddr.make cluster resource cow tbz) = 1)
    ∧ (∀ cluster resource cow : Nat, cluster < 2 ^ 22 → resource < 2 ^ 4 → cow < 2 →
      SubBlockAddr.parse (SubBlockAddr.make cluster resource cow) = (cluster, resource)
        ∧ SubBlockAddr.cow (SubBlockAddr.make cluster resource cow) = cow
        ∧ address_type (SubBlockAddr.make cluster resource cow) = 2)
    ∧ (∀ cluster resource cow : Nat, cluster < 2 ^ 36 → resource < 2 ^ 8 → cow < 2 →
      SubBlockAddr64.parse (SubBlockAddr64.make cluster resource cow) = (cluster, resource)
        ∧ SubBlockAddr64.cow (SubBlockAddr64.make cluster resource cow) = cow
        ∧ address_type (SubBlockAddr64.make cluster resource cow) = 2)
    ∧ (∀ cluster resource cow : Nat, cluster < 2 ^ 22 → resource < 2 ^ 4 → cow < 2 →
      PointerBlockAddr.parse (PointerBlockAddr.make cluster resource cow) = (cluster, resource)
        ∧ PointerBlockAddr.cow (PointerBlockAddr.make cluster resource cow) = cow
        ∧ address_type (PointerBlockAddr.make cluster resource cow) = 3)
    ∧ (∀ cluster resource cow : Nat, cluster < 2 ^ 36 → resource < 2 ^ 8 → cow < 2 →
      PointerBlockAddr64.parse (PointerBlockAddr64.make cluster resource cow)
          = (cluster, resource)
        ∧ PointerBlockAddr64.cow (PointerBlockAddr64.make cluster resource cow) = cow
        ∧ address_type (PointerBlockAddr64.make cluster resource cow) = 3)
    ∧ (∀ cluster resource cow : Nat, cluster < 2 ^ 22 → resource < 2 ^ 4 → cow < 2 →
      PointerBlockAddr.parse (PointerBlock2Addr.make cluster resource cow) = (cluster, resource)
        ∧ PointerBlockAddr.cow (PointerBlock2Addr.make cluster resource cow) = cow
        ∧ address_type (PointerBlock2Addr.make cluster resource cow) = 5)
    ∧ (∀ cluster resource cow : Nat, cluster < 2 ^ 36 → resource < 2 ^ 8 → cow < 2 →
      PointerBlockAddr64.parse (PointerBlock2Addr64.make cluster resource cow)
          = (cluster, resource)
        ∧ PointerBlockAddr64.cow (PointerBlock2Addr64.make cluster resource cow) = cow
        ∧ address_type (PointerBlock2Addr64.make cluster resource cow) = 5)
    ∧ (∀ cluster resource : Nat, cluster < 2 ^ 16 → resource < 2 ^ 10 →
      FileDescriptorAddr.parse (FileDescriptorAddr.make cluster resource)
          = (cluster, resource)
        ∧ address_type (FileDescriptorAddr.make cluster resource) = 4)
    ∧ (∀ cluster resource : Nat, cluster < 2 ^ 13 → resource < 2 ^ 6 →
      JournalBlockAddr.parse (JournalBlockAddr.make cluster resource) = (cluster, resource)
        ∧ address_type (JournalBlockAddr.make cluster resource) = 6)
    ∧ (∀ block cow tbz : Nat, block < 2 ^ 31 → cow < 2 → tbz < 2 →
      LargeFileBlockAddr.parse (LargeFileBlockAddr.make block cow tbz) = block
        ∧ LargeFileBlockAddr.cow (LargeFileBlockAddr.make block cow tbz) = cow
        ∧ LargeFileBlockAddr.tbz (LargeFileBlockAddr.make block cow tbz) = tbz
        ∧ address_type (LargeFileBlockAddr.make block cow tbz) = 7) := by
  refine ⟨?_, ?_, ?_, ?_, ?_, ?_, ?_, ?_, ?_, ?_, ?_⟩
  · exact fun b c t hb hc ht => fb_roundtrip b c t (by omega) hc ht
  · exact fun c r co t hc hr hco ht => sfb_roundtrip c r co t (by omega) (by omega) hco (by omega)
  · exact fun c r co hc hr hco => sb_roundtrip c r co (by omega) (by omega) hco
  · exact fun c r co hc hr hco => sb64_roundtrip c r co (by omega) (by omega) hco
  · exact fun c r co hc hr hco => pb_roundtrip c r co (by omega) (by omega) hco
  · exact fun c r co hc hr hco => pb64_roundtrip c r co (by omega) (by omega) hco
  · exact fun c r co hc hr hco => pb2_roundtrip c r co (by omega) (by omega) hco
  · exact fun c r co hc hr hco => pb264_roundtrip c r co (by omega) (by omega) hco
  · exact fun c r hc hr => fd_roundtrip c r (by omega) (by omega)
  · exact fun c r hc hr => jb_roundtrip c r (by omega) (by omega)
  · exact fun b c t hb hc ht => lfb_roundtrip b c t (by omega) hc ht

/-- Witness for C3 at concrete inputs. -/
theorem c3_address_roundtrip_witness :
    (FileBlockAddr.parse (FileBlockAddr.make 12345 1 1) = 12345
      ∧ FileBlockAddr.cow (FileBlockAddr.make 12345 1 1) = 1
      ∧ FileBlockAddr.tbz (FileBlockAddr.make 12345 1 1) = 1
      ∧ address_type (FileBlockAddr.make 12345 1 1) = 1)
    ∧ (SmallFileBlockAddr.parse (SmallFileBlockAddr.make 77 13 1 255) = (77, 13)
      ∧ SmallFileBlockAddr.cow (SmallFileBlockAddr.make 77 13 1 255) = 1
      ∧ SmallFileBlockAddr.tbz (SmallFileBlockAddr.make 77 13 1 255) = 255
      ∧ address_type (SmallFileBlockAddr.make 77 13 1 255) = 1)
    ∧ (JournalBlockAddr.parse (JournalBlockAddr.make 8191 63) = (8191, 63)
      ∧ address_type (JournalBlockAddr.make 8191 63) = 6) :=
  ⟨c3_address_roundtrip.1 12345 1 1 (by norm_num) (by norm_num) (by norm_num),
   c3_address_roundtrip.2.1 77 13 1 255 (by norm_num) (by norm_num) (by norm_num) (by norm_num),
   c3_address_roundtrip.2.2.2.2.2.2.2.2.2.1 8191 63 (by norm_num) (by norm_num)⟩

/-- C9: make is total; each field is masked to its bit width before packing, so shifting any
field by a multiple of 2 to its width leaves the made address unchanged. -/
theorem c9_make_masks_fields :
    (∀ block cow tbz kb kc kt : Nat,
      FileBlockAddr.make (block + 2 ^ 26 * kb) (cow + 2 * kc) (tbz + 2 * kt)
        = FileBlockAddr.make block cow tbz)
    ∧ (∀ cluster resource cow tbz kcl kr kc kt : Nat,
      SmallFileBlockAddr.make (cluster + 2 ^ 31 * kcl) (resource + 2 ^ 13 * kr)
          (cow + 2 * kc) (tbz + 2 ^ 8 * kt)
        = SmallFileBlockAddr.make cluster resource cow tbz)
    ∧ (∀ cluster resource cow kcl kr kc : Nat,
      SubBlockAddr.make (cluster + 2 ^ 22 * kcl) (resource + 2 ^ 4 * kr) (cow + 2 * kc)
        = SubBlockAddr.make cluster resource cow)
    ∧ (∀ cluster resource cow kcl kr kc : Nat,
      SubBlockAddr64.make (cluster + 2 ^ 36 * kcl) (resource + 2 ^ 8 * kr) (cow + 2 * kc)
        = SubBlockAddr64.make cluster resource cow)
    ∧ (∀ cluster resource cow kcl kr kc : Nat,
      PointerBlockAddr.make (cluster + 2 ^ 22 * kcl) (resource + 2 ^ 4 * kr) (cow + 2 * kc)
        = PointerBlockAddr.make cluster resource cow)
    ∧ (∀ cluster resource cow kcl kr kc : Nat,
      PointerBlockAddr64.make (cluster + 2 ^ 36 * kcl) (resource + 2 ^ 8 * kr) (cow + 2 * kc)
        = PointerBlockAddr64.make cluster resource cow)
    ∧ (∀ cluster resource cow kcl kr kc : Nat,
      PointerBlock2Addr.make (cluster + 2 ^ 22 * kcl) (resource + 2 ^ 4 * kr) (cow + 2 * kc)
        = PointerBlock2Addr.make cluster resource cow)
    ∧ (∀ cluster resource cow kcl kr kc : Nat,
      PointerBlock2Addr64.make (cluster + 2 ^ 36 * kcl) (resource + 2 ^ 8 * kr) (cow + 2 * kc)
        = PointerBlock2Addr64.make cluster resource cow)
    ∧ (∀ cluster resource kcl kr : Nat,
      FileDescriptorAddr.make (cluster + 2 ^ 16 * kcl) (resource + 2 ^ 10 * kr)
        = FileDescriptorAddr.make cluster resource)
    ∧ (∀ cluster resource kcl kr : Nat,
      JournalBlockAddr.make (cluster + 2 ^ 13 * kcl) (resource + 2 ^ 6 * kr)
        = JournalBlockAddr.make cluster resource)
    ∧ (∀ block cow tbz kb kc kt : Nat,
      LargeFileBlockAddr.make (block + 2 ^ 31 * kb) (cow + 2 * kc) (tbz + 2 ^ 8 * kt)
        = LargeFileBlockAddr.make block cow tbz) := by
  refine ⟨?_, ?_, ?_, ?_, ?_, ?_, ?_, ?_, ?_, ?_, ?_⟩
  · intro block cow tbz kb kc kt
    rw [fb_make_eq, fb_make_eq]
    omega
  · intro cluster resource cow tbz kcl kr kc kt
    rw [sfb_make_eq, sfb_make_eq]
    omega
  · intro cluster resource cow kcl kr kc
    rw [sb_make_eq, sb_make_eq]
    omega
  · intro cluster resource cow kcl kr kc
    rw [sb64_make_eq, sb64_make_eq]
    omega
  · intro cluster resource cow kcl kr kc
    rw [pb_make_eq, pb_make_eq]
    omega
  · intro cluster resource cow kcl kr kc
    rw [pb64_make_eq, pb64_make_eq]
    omega
  · intro cluster resource cow kcl kr kc
    rw [pb2_make_eq, pb2_make_eq]
    omega
  · intro cluster resource cow kcl kr kc
    rw [pb264_make_eq, pb264_make_eq]
    omega
  · intro cluster resource kcl kr
    rw [fd_make_eq, fd_make_eq]
    omega
  · intro cluster resource kcl kr
    rw [jb_make_eq, jb_make_eq]
    omega
  · intro block cow tbz kb kc kt
    rw [lfb_make_eq, lfb_make_eq]
    omega

/-- C10: parse reads only the field bit ranges; two addresses that agree on the field bits
parse identically, however the tag, cow, tbz, unused and unknown bits differ. -/
theorem c10_parse_noninterference :
    (∀ a b : Nat, a &&& 0xFFFFFFC0 = b &&& 0xFFFFFFC0 →
      FileBlockAddr.parse a = FileBlockAddr.parse b)
    ∧ (∀ a b : Nat, a &&& 0xFFF83FFFFFFF8000 = b &&& 0xFFF83FFFFFFF8000 →
      SmallFileBlockAddr.parse a = SmallFileBlockAddr.parse b)
    ∧ (∀ a b : Nat, a &&& 0xFFFFFFC0 = b &&& 0xFFFFFFC0 →
      SubBlockAddr.parse a = SubBlockAddr.parse b)
    ∧ (∀ a b : Nat, a &&& 0xFFFFFFD8 = b &&& 0xFFFFFFD8 →
      SubBlockAddr.parse a true = SubBlockAddr.parse b true)
    ∧ (∀ a b : Nat, a &&& 0xFF0003FFFFFFFFC0 = b &&& 0xFF0003FFFFFFFFC0 →
      SubBlockAddr64.parse a = SubBlockAddr64.parse b)
    ∧ (∀ a b : Nat, a &&& 0xFFFFFFC0 = b &&& 0xFFFFFFC0 →
      PointerBlockAddr.parse a = PointerBlockAddr.parse b)
    ∧ (∀ a b : Nat, a &&& 0xFF0003FFFFFFFFC0 = b &&& 0xFF0003FFFFFFFFC0 →
      PointerBlockAddr64.parse a = PointerBlockAddr64.parse b)
    ∧ (∀ a b : Nat, a &&& 0xFFFFFFC0 = b &&& 0xFFFFFFC0 →
      FileDescriptorAddr.parse a = FileDescriptorAddr.parse b)
    ∧ (∀ a b : Nat, a &&& 0xFC00FFF8 = b &&& 0xFC00FFF8 →
      JournalBlockAddr.parse a = JournalBlockAddr.parse b)
    ∧ (∀ a b : Nat, a &&& 0x3FFFFFFF8000 = b &&& 0x3FFFFFFF8000 →
      LargeFileBlockAddr.parse a = LargeFileBlockAddr.parse b) := by
  refine ⟨?_, ?_, ?_, ?_, ?_, ?_, ?_, ?_, ?_, ?_⟩
  · intro a b hab
    unfold FileBlockAddr.parse
    rw [← shiftRight_and_of_and_shiftLeft a 0xFFFFFFC0 0x3FFFFFF 6 (by decide), hab,
        shiftRight_and_of_and_shiftLeft b 0xFFFFFFC0 0x3FFFFFF 6 (by decide)]
  · intro a b hab
    unfold SmallFileBlockAddr.parse
    rw [← shiftRight_and_of_and_shiftLeft a 0xFFF83FFFFFFF8000 0x7FFFFFFF 15 (by decide),
        ← shiftRight_and_of_and_shiftLeft a 0xFFF83FFFFFFF8000 0x1FFF 51 (by decide), hab,
        shiftRight_and_of_and_shiftLeft b 0xFFF83FFFFFFF8000 0x7FFFFFFF 15 (by decide),
        shiftRight_and_of_and_shiftLeft b 0xFFF83FFFFFFF8000 0x1FFF 51 (by decide)]
  · intro a b hab
    have hc : (a >>> 6) &&& 0x3FFFFF = (b >>> 6) &&& 0x3FFFFF := by
      rw [← shiftRight_and_of_and_shiftLeft a 0xFFFFFFC0 0x3FFFFF 6 (by decide), hab,
          shiftRight_and_of_and_shiftLeft b 0xFFFFFFC0 0x3FFFFF 6 (by decide)]
    have hr : (a >>> 28) &&& 0xF = (b >>> 28) &&& 0xF := by
      rw [← shiftRight_and_of_and_shiftLeft a 0xFFFFFFC0 0xF 28 (by decide), hab,
          shiftRight_and_of_and_shiftLeft b 0xFFFFFFC0 0xF 28 (by decide)]
    simp [SubBlockAddr.parse, hc, hr]
  · intro a b hab
    have hc : (a >>> 6) &&& 0x3FFFFF = (b >>> 6) &&& 0x3FFFFF := by
      rw [← shiftRight_and_of_and_shiftLeft a 0xFFFFFFD8 0x3FFFFF 6 (by decide), hab,
          shiftRight_and_of_and_shiftLeft b 0xFFFFFFD8 0x3FFFFF 6 (by decide)]
    have hr : (a >>> 28) &&& 0xF = (b >>> 28) &&& 0xF := by
      rw [← shiftRight_and_of_and_shiftLeft a 0xFFFFFFD8 0xF 28 (by decide), hab,
          shiftRight_and_of_and_shiftLeft b 0xFFFFFFD8 0xF 28 (by decide)]
    have hd : a &&& 0b11000 = b &&& 0b11000 := by
      rw [← and_and_of_and_eq a 0xFFFFFFD8 0b11000 (by decide), hab,
          and_and_of_and_eq b 0xFFFFFFD8 0b11000 (by decide)]
    simp [SubBlockAddr.parse, hc, hr, hd]
  · intro a b hab
    unfold SubBlockAddr64.parse
    rw [← shiftRight_and_of_and_shiftLeft a 0xFF0003FFFFFFFFC0 0xFFFFFFFFF 6 (by decide),
        ← shiftRight_and_of_and_shiftLeft a 0xFF0003FFFFFFFFC0 0xFF 56 (by decide), hab,
        shiftRight_and_of_and_shiftLeft b 0xFF0003FFFFFFFFC0 0xFFFFFFFFF 6 (by decide),
        shiftRight_and_of_and_shiftLeft b 0xFF0003FFFFFFFFC0 0xFF 56 (by decide)]
  · intro a b hab
    unfold PointerBlockAddr.parse
    rw [← shiftRight_and_of_and_shiftLeft a 0xFFFFFFC0 0x3FFFFF 6 (by decide),
        ← shiftRight_and_of_and_shiftLeft a 0xFFFFFFC0 0xF 28 (by decide), hab,
        shiftRight_and_of_and_shiftLeft b 0xFFFFFFC0 0x3FFFFF 6 (by decide),
        shiftRight_and_of_and_shiftLeft b 0xFFFFFFC0 0xF 28 (by decide)]
  · intro a b hab
    unfold PointerBlockAddr64.parse
    rw [← shiftRight_and_of_and_shiftLeft a 0xFF0003FFFFFFFFC0 0xFFFFFFFFF 6 (by decide),
        ← shiftRight_and_of_and_shiftLeft a 0xFF0003FFFFFFFFC0 0xFF 56 (by decide), hab,
        shiftRight_and_of_and_shiftLeft b 0xFF0003FFFFFFFFC0 0xFFFFFFFFF 6 (by decide),
        shiftRight_and_of_and_shiftLeft b 0xFF0003FFFFFFFFC0 0xFF 56 (by decide)]
  · intro a b hab
    unfold FileDescriptorAddr.parse
    rw [← shiftRight_and_of_and_shiftLeft a 0xFFFFFFC0 0xFFFF 6 (by decide),
        ← shiftRight_and_of_and_shiftLeft a 0xFFFFFFC0 0x3FF 22 (by decide), hab,
        shiftRight_and_of_and_shiftLeft b 0xFFFFFFC0 0xFFFF 6 (by decide),
        shiftRight_and_of_and_shiftLeft b 0xFFFFFFC0 0x3FF 22 (by decide)]
  · intro a b hab
    unfold JournalBlockAddr.parse
    rw [← shiftRight_and_of_and_shiftLeft a 0xFC00FFF8 0x1FFF 3 (by decide),
        ← shiftRight_and_of_and_shiftLeft a 0xFC00FFF8 0x3F 26 (by decide), hab,
        shiftRight_and_of_and_shiftLeft b 0xFC00FFF8 0x1FFF 3 (by decide),
        shiftRight_and_of_and_shiftLeft b 0xFC00FFF8 0x3F 26 (by decide)]
  · intro a b hab
    unfold LargeFileBlockAddr.parse
    rw [← shiftRight_and_of_and_shiftLeft a 0x3FFFFFFF8000 0x7FFFFFFF 15 (by decide), hab,
        shiftRight_and_of_and_shiftLeft b 0x3FFFFFFF8000 0x7FFFFFFF 15 (by decide)]

/-- Witness for C10 at concrete inputs that differ only in flag and unused bits. -/
theorem c10_parse_noninterference_witness :
    (0x12345671 : Nat) &&& 0xFFFFFFC0 = (0x12345679 : Nat) &&& 0xFFFFFFC0
      ∧ FileBlockAddr.parse 0x12345671 = FileBlockAddr.parse 0x12345679 :=
  ⟨by decide, c10_parse_noninterference.1 0x12345671 0x12345679 (by decide)⟩

/-! ## LVM volume assembly (src/dissect/vmfs/lvm.py) -/

/-- A used physical extent of a volume, as yielded (sorted by logical offset) by
`Volume._iter_pe`: logical offset, physical offset, length and owning device. -/
structure PhysExtent where
  lOffset : Nat
  pOffset : Nat
  length : Nat
  device : Nat
deriving DecidableEq, Repr

/-- A datarun as returned by `Volume.dataruns`. -/
structure DataRun where
  logicalOffset : Nat
  physicalOffset : Nat
  size : Nat
  device : Nat
deriving DecidableEq, Repr

/-- The model of an assembled `Volume`: the logical size from devZero metadata, the
`extVolMeta.numDevs` counter, the per-device `(firstPE, lastPE)` descriptors in device
order, and the used physical extents of the volume in logical-offset order. -/
structure LVMVolume where
  logicalSize : Nat
  numDevs : Nat
  devs : List (Nat × Nat)
  extents : List PhysExtent
deriving DecidableEq, Repr

/-- The run-building loop of `Volume.dataruns`: flush-and-coalesce over the sorted
physical extents, rejecting any hole in logical coverage. -/
def datarunsGo : List PhysExtent → Option DataRun → Nat → Except String (List DataRun)
  | [], none, _ => .ok []
  | [], some r, _ => .ok [r]
  | pe :: rest, cur, expected =>
    if pe.lOffset ≠ expected then .error "Found hole in volume physical extents"
    else
      match cur with
      | none => datarunsGo rest (some ⟨pe.lOffset, pe.pOffset, pe.length, pe.device⟩)
          (expected + pe.length)
      | some r =>
        if r.physicalOffset + r.size = pe.pOffset ∧ r.device = pe.device then
          datarunsGo rest (some ⟨r.logicalOffset, r.physicalOffset, r.size + pe.length, r.device⟩)
            (expected + pe.length)
        else
          (datarunsGo rest (some ⟨pe.lOffset, pe.pOffset, pe.length, pe.device⟩)
            (expected + pe.length)).map (r :: ·)

/-- `Volume.dataruns`. -/
def dataruns (v : LVMVolume) : Except String (List DataRun) :=
  datarunsGo v.extents none 0

/-- The runs are contiguous starting at the given logical offset. -/
def runsChain : Nat → List DataRun → Prop
  | _, [] => True
  | start, r :: rest => r.logicalOffset = start ∧ runsChain (start + r.size) rest

/-- No two adjacent runs could have been coalesced further. -/
def runsCoalesced : List DataRun → Prop
  | [] => True
  | [_] => True
  | r1 :: r2 :: rest =>
    ¬(r1.physicalOffset + r1.size = r2.physicalOffset ∧ r1.device = r2.device)
      ∧ runsCoalesced (r2 :: rest)

/-- Total size of a run list. -/
def runsTotal (runs : List DataRun) : Nat :=
  (runs.map (·.size)).sum

/-- Total length of an extent list. -/
def extentsTotal (pes : List PhysExtent) : Nat :=
  (pes.map (·.length)).sum

/-- The extents are contiguous starting at the given logical offset. -/
def extentsChain : Nat → List PhysExtent → Prop
  | _, [] => True
  | cur, pe :: rest => pe.lOffset = cur ∧ extentsChain (cur + pe.length) rest

theorem datarunsGo_some_spec :
    ∀ (pes : List PhysExtent) (r : DataRun) (runs : List DataRun),
      datarunsGo pes (some r) (r.logicalOffset + r.size) = .ok runs →
      runsChain r.logicalOffset runs
        ∧ runsTotal runs = r.size + extentsTotal pes
        ∧ runsCoalesced runs
        ∧ ∃ r1 tail, runs = r1 :: tail ∧ r1.logicalOffset = r.logicalOffset
            ∧ r1.physicalOffset = r.physicalOffset ∧ r1.device = r.device := by
  intro pes
  induction pes with
  | nil =>
    intro r runs h
    simp only [datarunsGo, Except.ok.injEq] at h
    subst h
    refine ⟨⟨rfl, trivial⟩, by simp [runsTotal, extentsTotal], trivial, r, [], rfl, rfl, rfl, rfl⟩
  | cons pe rest ih =>
    intro r runs h
    simp only [datarunsGo] at h
    by_cases hl : pe.lOffset = r.logicalOffset + r.size
    · rw [if_neg (by simpa using hl)] at h
      by_cases hext : r.physicalOffset + r.size = pe.pOffset ∧ r.device = pe.device
      · rw [if_pos hext] at h
        have h2 := ih ⟨r.logicalOffset, r.physicalOffset, r.size + pe.length, r.device⟩ runs
          (by simpa [Nat.add_assoc] using h)
        obtain ⟨hchain, htotal, hco, r1, tail, hruns, h1, h2p, h3⟩ := h2
        exact ⟨hchain, by simp only [extentsTotal, List.map_cons, List.sum_cons] at htotal ⊢; omega,
          hco, r1, tail, hruns, h1, h2p, h3⟩
      · rw [if_neg hext] at h
        obtain ⟨runs', hrec, hmap⟩ :
            ∃ runs', datarunsGo rest (some ⟨pe.lOffset, pe.pOffset, pe.length, pe.device⟩)
              (r.logicalOffset + r.size + pe.length) = .ok runs' ∧ runs = r :: runs' := by
          cases hx : datarunsGo rest (some ⟨pe.lOffset, pe.pOffset, pe.length, pe.device⟩)
              (r.logicalOffset + r.size + pe.length) with
          | error e => rw [hx] at h; simp [Except.map] at h
          | ok runs' => rw [hx] at h; simp [Except.map] at h; exact ⟨runs', rfl, h.symm⟩
        have h2 := ih ⟨pe.lOffset, pe.pOffset, pe.length, pe.device⟩ runs'
          (by simpa [hl] using hrec)
        obtain ⟨hchain, htotal, hco, r1, tail, hruns', h1, h2p, h3⟩ := h2
        subst hmap
        refine ⟨⟨rfl, by rw [← hl]; exact hchain⟩,
          by simp only [runsTotal, extentsTotal, List.map_cons, List.sum_cons] at htotal ⊢; omega,
          ?_, r, runs', rfl, rfl, rfl, rfl⟩
        rw [hruns']
        rw [hruns'] at hco
        exact ⟨by rw [h2p, h3]; exact hext, hco⟩
    · rw [if_pos (by simpa using hl)] at h
      simp at h

theorem runsChain_get :
    ∀ (runs : List DataRun) (start : Nat), runsChain start runs →
      ∀ i (h : i < runs.length),
        (runs.get ⟨i, h⟩).logicalOffset = start + runsTotal (runs.take i) := by
  intro runs
  induction runs with
  | nil => intro start hch i h; simp at h
  | cons r rest ih =>
    intro start hch i h
    obtain ⟨h0, hrest⟩ := hch
    cases i with
    | zero => simpa [runsTotal] using h0
    | succ i =>
      have := ih (start + r.size) hrest i (by simpa using h)
      simp only [List.get_cons_succ, List.take_succ_cons, runsTotal, List.map_cons,
        List.sum_cons] at this ⊢
      omega

theorem datarunsGo_ok_iff :
    ∀ (pes : List PhysExtent) (cur : Option DataRun) (expected : Nat),
      (∃ runs, datarunsGo pes cur expected = .ok runs) ↔ extentsChain expected pes := by
  intro pes
  induction pes with
  | nil =>
    intro cur expected
    cases cur with
    | none => simp [datarunsGo, extentsChain]
    | some r => simp [datarunsGo, extentsChain]
  | cons pe rest ih =>
    intro cur expected
    cases cur with
    | none =>
      simp only [datarunsGo, extentsChain]
      by_cases hl : pe.lOffset = expected
      · rw [if_neg (by simpa using hl)]
        simpa [hl] using ih _ (expected + pe.length)
      · rw [if_pos (by simpa using hl)]
        simp [hl]
    | some r =>
      simp only [datarunsGo, extentsChain]
      by_cases hl : pe.lOffset = expected
      · rw [if_neg (by simpa using hl)]
        by_cases hext : r.physicalOffset + r.size = pe.pOffset ∧ r.device = pe.device
        · rw [if_pos hext]
          simpa [hl] using ih _ (expected + pe.length)
        · rw [if_neg hext]
          have hmap : (∃ runs, (datarunsGo rest
              (some ⟨pe.lOffset, pe.pOffset, pe.length, pe.device⟩)
              (expected + pe.length)).map (r :: ·) = .ok runs)
              ↔ (∃ runs, datarunsGo rest (some ⟨pe.lOffset, pe.pOffset, pe.length, pe.device⟩)
                (expected + pe.length) = .ok runs) := by
            cases hx : datarunsGo rest (some ⟨pe.lOffset, pe.pOffset, pe.length, pe.device⟩)
                (expected + pe.length) with
            | error e => simp [Except.map]
            | ok runs => simp [Except.map]
          rw [hmap]
          simpa [hl] using ih _ (expected + pe.length)
      · rw [if_pos (by simpa using hl)]
        simp [hl]

/-- C4 (amended): whenever `Volume.dataruns` returns without raising, the runs are sorted,
contiguous from logical offset 0 (run i starts at the sum of the lengths of runs 0..i-1),
maximally coalesced, and their total size equals the total length of the used physical
extents; any hole in logical coverage makes it raise instead of returning.  The code never
compares the total against `volume.size` (the `logicalSize` metadata field). -/
theorem c4_dataruns_invariants :
    (∀ (v : LVMVolume) (runs : List DataRun), dataruns v = .ok runs →
      runsChain 0 runs
        ∧ (∀ i (h : i < runs.length),
            (runs.get ⟨i, h⟩).logicalOffset = runsTotal (runs.take i))
        ∧ runsCoalesced runs
        ∧ runsTotal runs = extentsTotal v.extents)
    ∧ (∀ v : LVMVolume, (∃ runs, dataruns v = .ok runs) ↔ extentsChain 0 v.extents) := by
  constructor
  · intro v runs h
    unfold dataruns at h
    have main : runsChain 0 runs ∧ runsCoalesced runs ∧ runsTotal runs = extentsTotal v.extents := by
      cases hpes : v.extents with
      | nil =>
        rw [hpes] at h
        simp only [datarunsGo, Except.ok.injEq] at h
        subst h
        simp [runsChain, runsCoalesced, runsTotal, extentsTotal]
      | cons pe rest =>
        rw [hpes] at h
        simp only [datarunsGo] at h
        by_cases hl : pe.lOffset = 0
        · rw [if_neg (by simpa using hl)] at h
          have := datarunsGo_some_spec rest ⟨pe.lOffset, pe.pOffset, pe.length, pe.device⟩ runs
            (by simpa [hl] using h)
          obtain ⟨hchain, htotal, hco, _⟩ := this
          rw [hl] at hchain
          refine ⟨hchain, hco, ?_⟩
          simp only [extentsTotal, List.map_cons, List.sum_cons] at htotal ⊢
          omega
        · rw [if_pos (by simpa using hl)] at h
          simp at h
    exact ⟨main.1, fun i hi => by simpa using runsChain_get runs 0 main.1 i hi, main.2.1, main.2.2⟩
  · intro v
    exact datarunsGo_ok_iff v.extents none 0

/-- A volume whose physical extents are contiguous but whose total extent length differs
from the `logicalSize` metadata. -/
def c4Volume : LVMVolume :=
  ⟨200, 1, [(0, 0)], [⟨0, 0, 100, 0⟩]⟩

/-- Counterexample for C4 as stated: `dataruns` returns without raising, yet the sum of the
run lengths (100) differs from `volume.size` (`logicalSize` = 200). -/
theorem c4_size_counterexample :
    dataruns c4Volume = .ok [⟨0, 0, 100, 0⟩]
      ∧ runsTotal [⟨0, 0, 100, 0⟩] = 100 ∧ c4Volume.logicalSize = 200 :=
  ⟨rfl, rfl, rfl⟩

/-- A two-extent volume whose extents cannot be coalesced. -/
def c4WitnessVolume : LVMVolume :=
  ⟨150, 1, [(0, 0)], [⟨0, 0, 100, 5⟩, ⟨100, 500, 50, 5⟩]⟩

/-- Witness for C4 at a concrete volume. -/
theorem c4_dataruns_invariants_witness :
    runsChain 0 [⟨0, 0, 100, 5⟩, ⟨100, 500, 50, 5⟩]
      ∧ runsCoalesced [⟨0, 0, 100, 5⟩, ⟨100, 500, 50, 5⟩]
      ∧ runsTotal [⟨0, 0, 100, 5⟩, ⟨100, 500, 50, 5⟩] = extentsTotal c4WitnessVolume.extents :=
  ⟨(c4_dataruns_invariants.1 c4WitnessVolume _ rfl).1,
   (c4_dataruns_invariants.1 c4WitnessVolume _ rfl).2.2.1,
   (c4_dataruns_invariants.1 c4WitnessVolume _ rfl).2.2.2⟩

/-! ## Volume validity and open (src/dissect/vmfs/lvm.py) -/

/-- The per-device continuity check of `Volume.is_valid`: each device's `firstPE`
equals the running counter, which advances to `lastPE + 1`. -/
def peChainCheck : Nat → List (Nat × Nat) → Bool
  | _, [] => true
  | cur, (f, l) :: rest => if f ≠ cur then false else peChainCheck (l + 1) rest

/-- `Volume.is_valid`. -/
def is_valid (v : LVMVolume) : Bool :=
  match v.devs with
  | [] => false
  | (f0, _) :: _ =>
    if f0 ≠ 0 then false
    else if v.numDevs ≠ v.devs.length then false
    else peChainCheck 0 v.devs

/-- The two failure modes of `Volume.open` and datarun construction. -/
inductive VolumeOpenError where
  | volumeNotAvailable
  | valueError
deriving DecidableEq, Repr

/-- `Volume.open`: raise `VolumeNotAvailable` for invalid volumes, otherwise construct a
`VolumeStream`, whose initialiser materialises the dataruns (raising `ValueError` on a
hole in the physical extents). -/
def volumeOpen (v : LVMVolume) : Except VolumeOpenError (List DataRun) :=
  if ¬ is_valid v then .error .volumeNotAvailable
  else
    match dataruns v with
    | .ok runs => .ok runs
    | .error _ => .error .valueError

/-- The claim's validity conditions, as a proposition. -/
def devChainProp : Nat → List (Nat × Nat) → Prop
  | _, [] => True
  | cur, (f, l) :: rest => f = cur ∧ devChainProp (l + 1) rest

/-- The claim's notion of a valid volume: devZero owns PE 0, the device count matches,
and each subsequent device continues the PE range of the previous one. -/
def validSpec (v : LVMVolume) : Prop :=
  (v.devs.headD (0, 0)).1 = 0 ∧ v.numDevs = v.devs.length ∧ devChainProp 0 v.devs

theorem peChainCheck_iff :
    ∀ (devs : List (Nat × Nat)) (cur : Nat), peChainCheck cur devs = true ↔ devChainProp cur devs := by
  intro devs
  induction devs with
  | nil => intro cur; simp [peChainCheck, devChainProp]
  | cons d rest ih =>
    intro cur
    obtain ⟨f, l⟩ := d
    by_cases hf : f = cur
    · simp [peChainCheck, devChainProp, hf, ih (l + 1)]
    · simp [peChainCheck, devChainProp, hf]

theorem is_valid_iff (v : LVMVolume) (hne : v.devs ≠ []) :
    is_valid v = true ↔ validSpec v := by
  unfold is_valid validSpec
  cases hdevs : v.devs with
  | nil => exact absurd hdevs hne
  | cons d rest =>
    obtain ⟨f0, l0⟩ := d
    by_cases hf : f0 = 0
    · by_cases hn : v.numDevs = rest.length + 1
      · simp [hf, hn, ← hdevs, peChainCheck_iff]
      · simp [hf, hn]
    · simp [hf]

/-- C8 (amended): `Volume.open` raises `VolumeNotAvailable` exactly when the volume fails
the validity conditions (devZero `firstPE == 0`, `numDevs == len(devices)`, contiguous
`firstPE`/`lastPE` chain); a stream is returned only for valid volumes, but a valid volume
whose physical extents have a hole still fails - with `ValueError` from datarun
construction rather than with a stream. -/
theorem c8_volume_open :
    ∀ v : LVMVolume, v.devs ≠ [] →
      ((volumeOpen v = .error .volumeNotAvailable) ↔ ¬ validSpec v)
        ∧ (∀ runs, volumeOpen v = .ok runs → validSpec v ∧ dataruns v = .ok runs)
        ∧ (validSpec v → ∀ runs, dataruns v = .ok runs → volumeOpen v = .ok runs)
        ∧ (validSpec v → ∀ e, dataruns v = .error e → volumeOpen v = .error .valueError) := by
  intro v hne
  by_cases hv : is_valid v = true
  · have hspec := (is_valid_iff v hne).mp hv
    have hopen : volumeOpen v
        = match dataruns v with
          | .ok runs => .ok runs
          | .error _ => .error .valueError := by
      unfold volumeOpen
      rw [if_neg (by simp [hv])]
    refine ⟨?_, ?_, ?_, ?_⟩
    · rw [hopen]
      cases hx : dataruns v with
      | ok runs => simp [hspec]
      | error e => simp [hspec]
    · intro runs h
      rw [hopen] at h
      cases hx : dataruns v with
      | ok runs2 =>
        rw [hx] at h
        simp only [Except.ok.injEq] at h
        subst h
        exact ⟨hspec, rfl⟩
      | error e =>
        rw [hx] at h
        simp at h
    · intro _ runs h
      rw [hopen, h]
    · intro _ e h
      rw [hopen, h]
  · have hspec : ¬ validSpec v := fun hs => hv ((is_valid_iff v hne).mpr hs)
    have hopen : volumeOpen v = .error .volumeNotAvailable := by
      unfold volumeOpen
      rw [if_pos (by simpa using hv)]
    refine ⟨?_, ?_, ?_, ?_⟩
    · simp [hopen, hspec]
    · intro runs h
      rw [hopen] at h
      simp at h
    · intro hs
      exact absurd hs hspec
    · intro hs
      exact absurd hs hspec

/-- A volume with valid device metadata but a hole in its physical extents. -/
def c8Volume : LVMVolume :=
  ⟨100, 1, [(0, 9)], [⟨5, 0, 10, 0⟩]⟩

/-- Counterexample for C8 as stated: the volume satisfies all the claimed validity
conditions, yet `open()` does not return a stream - datarun construction raises
`ValueError` because of the extent hole. -/
theorem c8_open_counterexample :
    is_valid c8Volume = true ∧ volumeOpen c8Volume = .error .valueError :=
  ⟨rfl, rfl⟩

/-- A fully readable volume. -/
def c8WitnessVolume : LVMVolume :=
  ⟨100, 2, [(0, 3), (4, 9)], [⟨0, 0, 100, 0⟩]⟩

/-- Witness for C8 at a concrete volume. -/
theorem c8_volume_open_witness :
    (volumeOpen c8WitnessVolume = .error .volumeNotAvailable) ↔ ¬ validSpec c8WitnessVolume :=
  (c8_volume_open c8WitnessVolume (by simp [c8WitnessVolume])).1

/-! ## File offset resolution (src/dissect/vmfs/descriptor.py) -/

/-- `FS3_ZeroLevelAddrType.FILE_DESCRIPTOR_RESIDENT`. -/
def FILE_DESCRIPTOR_RESIDENT : Nat := 0x10D1

/-- The per-file-descriptor inputs of `_resolve_offset`: the ZLA, the file block size
(`metadata.blockSize`), `metadata.blockOffsetShift`, the lock address
(`lock_info.addr.offset`) and the resident data window of the owning filesystem. -/
structure FileDescCtx where
  zla : Nat
  blockSize : Nat
  blockOffsetShift : Nat
  lockAddrOffset : Nat
  fdDataOffset : Nat
  fdDataSize : Nat

/-- `FileDescriptor._resolve_resident_offset`: bounds check, then lock address plus data
offset plus offset. -/
def resolveResidentOffset (fd : FileDescCtx) (offset : Nat) : Option Nat :=
  if offset > fd.fdDataSize then none
  else some (fd.lockAddrOffset + fd.fdDataOffset + offset)

/-- The `block_offset` computation of `FileDescriptor5._resolve_offset`: resolve through
the resource for the address kind when one is open, fall back to
`FileBlockAddr.parse(block) << blockOffsetShift` for FB, and fail otherwise. -/
def blockBase5 (getRes : Nat → Option (Nat → Nat)) (blockOffsetShift : Nat)
    (block : Nat) : Option Nat :=
  match getRes (address_type block) with
  | some resolveAddress => some (resolveAddress block)
  | none =>
    if address_type block = 1 then some (FileBlockAddr.parse block <<< blockOffsetShift)
    else none

/-- `FileDescriptor5._resolve_offset`, with `_offset_to_block_address` (otba) and the
resource manager (getRes, kind to resolve_address) abstracted as oracles. -/
def resolveOffset5 (fd : FileDescCtx) (otba : Nat → Option Nat)
    (getRes : Nat → Option (Nat → Nat)) (offset : Nat) : Option (Nat × Nat) :=
  if fd.zla = FILE_DESCRIPTOR_RESIDENT then
    (resolveResidentOffset fd offset).map (fun vo => (vo, 0))
  else
    match otba offset with
    | none => none
    | some block =>
      match blockBase5 getRes fd.blockOffsetShift block with
      | none => none
      | some blockOffset =>
        let offsetInBlock := offset &&& (fd.blockSize - 1)
        let tbz := if address_type block = 1 then (block &&& 0x20) >>> 5 else 0
        some (blockOffset + offsetInBlock, tbz)

/-- The shift and size constants of the owning VMFS6 filesystem. -/
structure VMFSCtx6 where
  fileBlockSizeShift : Nat
  subBlockSizeShift : Nat
  sfbToLfbShift : Nat
  sfbSize : Nat

/-- The `block_offset` computation of `FileDescriptor6._resolve_offset`: resolve through
the resource when one is open, fall back to the SFB arithmetic
`((cluster * sfb_size) + resource) << blockOffsetShift`, and fail otherwise. -/
def blockBase6 (ctx : VMFSCtx6) (getRes : Nat → Option (Nat → Nat))
    (blockOffsetShift : Nat) (block : Nat) : Option Nat :=
  match getRes (address_type block) with
  | some resolveAddress => some (resolveAddress block)
  | none =>
    if address_type block = 1 then
      some ((((SmallFileBlockAddr.parse block).1 * ctx.sfbSize)
        + (SmallFileBlockAddr.parse block).2) <<< blockOffsetShift)
    else none

/-- The `offset_in_block` computation of `FileDescriptor6._resolve_offset`. -/
def offsetInBlock6 (ctx : VMFSCtx6) (type offset : Nat) : Option Nat :=
  if type = 7 then
    some (offset &&& ((1 <<< (ctx.sfbToLfbShift + ctx.fileBlockSizeShift)) - 1))
  else if type = 1 then
    some (offset &&& ((1 <<< ctx.fileBlockSizeShift) - 1))
  else if type = 2 then
    some (offset &&& ((1 <<< ctx.subBlockSizeShift) - 1))
  else none

/-- `FileDescriptor6._resolve_offset`, with the same oracles as `resolveOffset5`. -/
def resolveOffset6 (ctx : VMFSCtx6) (fd : FileDescCtx) (otba : Nat → Option Nat)
    (getRes : Nat → Option (Nat → Nat)) (offset : Nat) : Option (Nat × Nat) :=
  if fd.zla = FILE_DESCRIPTOR_RESIDENT then
    (resolveResidentOffset fd offset).map (fun vo => (vo, 0))
  else
    match otba offset with
    | none => none
    | some block =>
      match blockBase6 ctx getRes fd.blockOffsetShift block with
      | none => none
      | some blockOffset =>
        match offsetInBlock6 ctx (address_type block) offset with
        | none => none
        | some offsetInBlock =>
          let tbz := if address_type block = 1 ∨ address_type block = 7 then
            (block >>> 7) &&& 0xFF else 0
          some (blockOffset + offsetInBlock, tbz)

/-- Extracting bit n by masking then shifting is the same as shifting then masking. -/
theorem and_two_pow_shiftRight (a n : Nat) : (a &&& 2 ^ n) >>> n = (a >>> n) &&& 1 := by
  apply Nat.eq_of_testBit_eq
  intro i
  simp only [Nat.testBit_and, Nat.testBit_shiftRight, Nat.testBit_two_pow]
  cases i with
  | zero => simp
  | succ j =>
    have h1 : ¬(n = n + (j + 1)) := by omega
    have h2 : Nat.testBit 1 (j + 1) = false := by
      rw [show (1 : Nat) = 2 ^ 0 from rfl, Nat.testBit_two_pow]
      simp
    simp [h1, h2]

/-- C1: for non-resident files, whenever `_resolve_offset` returns `(volume_offset, tbz)`,
the in-block offset added to the block base is `offset & (file_block_size - 1)` for FB and
SFB (where the VMFS6 file block size is `2 ^ fileBlockSizeShift`), `offset &
(sub_block_size - 1)` for SB, and `offset & (file_block_size * 2 ^ sfbToLfbShift - 1)` for
LFB; tbz is bit 5 of the block address on VMFS5 FB, bits 7..15 on VMFS6 SFB/LFB, and 0 for
every other kind, including the resident case. -/
theorem c1_resolve_offset :
    (∀ (fd : FileDescCtx) (otba : Nat → Option Nat) (getRes : Nat → Option (Nat → Nat))
        (offset vo tbz fileBlockSize subBlockSize : Nat),
      fd.zla ≠ FILE_DESCRIPTOR_RESIDENT →
      resolveOffset5 fd otba getRes offset = some (vo, tbz) →
      ∃ block base, otba offset = some block
        ∧ blockBase5 getRes fd.blockOffsetShift block = some base
        ∧ (address_type block = 1 → fd.blockSize = fileBlockSize →
            vo = base + (offset &&& (fileBlockSize - 1)))
        ∧ (address_type block = 1 → tbz = (block >>> 5) &&& 1)
        ∧ (address_type block = 2 → fd.blockSize = subBlockSize →
            vo = base + (offset &&& (subBlockSize - 1)))
        ∧ (address_type block ≠ 1 → tbz = 0))
    ∧ (∀ (ctx : VMFSCtx6) (fd : FileDescCtx) (otba : Nat → Option Nat)
        (getRes : Nat → Option (Nat → Nat)) (offset vo tbz : Nat),
      fd.zla ≠ FILE_DESCRIPTOR_RESIDENT →
      resolveOffset6 ctx fd otba getRes offset = some (vo, tbz) →
      ∃ block base, otba offset = some block
        ∧ blockBase6 ctx getRes fd.blockOffsetShift block = some base
        ∧ (address_type block = 1 →
            vo = base + (offset &&& (2 ^ ctx.fileBlockSizeShift - 1))
              ∧ tbz = (block >>> 7) &&& 0xFF)
        ∧ (address_type block = 7 →
            vo = base + (offset &&& (2 ^ ctx.fileBlockSizeShift * 2 ^ ctx.sfbToLfbShift - 1))
              ∧ tbz = (block >>> 7) &&& 0xFF)
        ∧ (address_type block = 2 →
            vo = base + (offset &&& (2 ^ ctx.subBlockSizeShift - 1)) ∧ tbz = 0))
    ∧ (∀ (fd : FileDescCtx) (otba : Nat → Option Nat) (getRes : Nat → Option (Nat → Nat))
        (offset vo tbz : Nat), fd.zla = FILE_DESCRIPTOR_RESIDENT →
      resolveOffset5 fd otba getRes offset = some (vo, tbz) → tbz = 0)
    ∧ (∀ (ctx : VMFSCtx6) (fd : FileDescCtx) (otba : Nat → Option Nat)
        (getRes : Nat → Option (Nat → Nat)) (offset vo tbz : Nat),
      fd.zla = FILE_DESCRIPTOR_RESIDENT →
      resolveOffset6 ctx fd otba getRes offset = some (vo, tbz) → tbz = 0) := by
  refine ⟨?_, ?_, ?_, ?_⟩
  · intro fd otba getRes offset vo tbz fileBlockSize subBlockSize hzla h
    unfold resolveOffset5 at h
    rw [if_neg hzla] at h
    cases hb : otba offset with
    | none => rw [hb] at h; simp at h
    | some block =>
      rw [hb] at h
      replace h : (match blockBase5 getRes fd.blockOffsetShift block with
        | none => none
        | some blockOffset => some (blockOffset + (offset &&& (fd.blockSize - 1)),
            if address_type block = 1 then (block &&& 0x20) >>> 5 else 0)) = some (vo, tbz) := h
      cases hbase : blockBase5 getRes fd.blockOffsetShift block with
      | none => rw [hbase] at h; simp at h
      | some base =>
        rw [hbase] at h
        simp only [Option.some.injEq, Prod.mk.injEq] at h
        obtain ⟨hvo, htbz⟩ := h
        refine ⟨block, base, rfl, hbase, ?_, ?_, ?_, ?_⟩
        · intro _ hfb
          rw [← hvo, hfb]
        · intro ht
          rw [← htbz, if_pos ht, show (0x20 : Nat) = 2 ^ 5 from rfl, and_two_pow_shiftRight]
        · intro _ hsb
          rw [← hvo, hsb]
        · intro ht
          rw [← htbz, if_neg ht]
  · intro ctx fd otba getRes offset vo tbz hzla h
    unfold resolveOffset6 at h
    rw [if_neg hzla] at h
    cases hb : otba offset with
    | none => rw [hb] at h; simp at h
    | some block =>
      rw [hb] at h
      replace h : (match blockBase6 ctx getRes fd.blockOffsetShift block with
        | none => none
        | some blockOffset =>
          match offsetInBlock6 ctx (address_type block) offset with
          | none => none
          | some offsetInBlock =>
            some (blockOffset + offsetInBlock,
              if address_type block = 1 ∨ address_type block = 7 then
                (block >>> 7) &&& 0xFF else 0)) = some (vo, tbz) := h
      cases hbase : blockBase6 ctx getRes fd.blockOffsetShift block with
      | none => rw [hbase] at h; simp at h
      | some base =>
        rw [hbase] at h
        replace h : (match offsetInBlock6 ctx (address_type block) offset with
          | none => none
          | some offsetInBlock =>
            some (base + offsetInBlock,
              if address_type block = 1 ∨ address_type block = 7 then
                (block >>> 7) &&& 0xFF else 0)) = some (vo, tbz) := h
        cases hoib : offsetInBlock6 ctx (address_type block) offset with
        | none => rw [hoib] at h; simp at h
        | some oib =>
          rw [hoib] at h
          simp only [Option.some.injEq, Prod.mk.injEq] at h
          obtain ⟨hvo, htbz⟩ := h
          refine ⟨block, base, rfl, hbase, ?_, ?_, ?_⟩
          · intro ht
            unfold offsetInBlock6 at hoib
            rw [if_neg (by omega), if_pos ht] at hoib
            simp only [Option.some.injEq] at hoib
            constructor
            · rw [← hvo, ← hoib, Nat.shiftLeft_eq, Nat.one_mul]
            · rw [← htbz, if_pos (Or.inl ht)]
          · intro ht
            unfold offsetInBlock6 at hoib
            rw [if_pos ht] at hoib
            simp only [Option.some.injEq] at hoib
            constructor
            · rw [← hvo, ← hoib, Nat.shiftLeft_eq, Nat.one_mul, Nat.pow_add, Nat.mul_comm
                (2 ^ ctx.sfbToLfbShift)]
            · rw [← htbz, if_pos (Or.inr ht)]
          · intro ht
            unfold offsetInBlock6 at hoib
            rw [if_neg (by omega), if_neg (by omega), if_pos ht] at hoib
            simp only [Option.some.injEq] at hoib
            constructor
            · rw [← hvo, ← hoib, Nat.shiftLeft_eq, Nat.one_mul]
            · rw [← htbz, if_neg (by omega)]
  · intro fd otba getRes offset vo tbz hzla h
    unfold resolveOffset5 at h
    rw [if_pos hzla] at h
    unfold resolveResidentOffset at h
    by_cases hoff : offset > fd.fdDataSize
    · rw [if_pos hoff] at h; simp at h
    · rw [if_neg hoff] at h
      replace h : some (fd.lockAddrOffset + fd.fdDataOffset + offset, (0 : Nat))
          = some (vo, tbz) := h
      simp only [Option.some.injEq, Prod.mk.injEq] at h
      exact h.2.symm
  · intro ctx fd otba getRes offset vo tbz hzla h
    unfold resolveOffset6 at h
    rw [if_pos hzla] at h
    unfold resolveResidentOffset at h
    by_cases hoff : offset > fd.fdDataSize
    · rw [if_pos hoff] at h; simp at h
    · rw [if_neg hoff] at h
      replace h : some (fd.lockAddrOffset + fd.fdDataOffset + offset, (0 : Nat))
          = some (vo, tbz) := h
      simp only [Option.some.injEq, Prod.mk.injEq] at h
      exact h.2.symm

/-- Concrete offset-to-block oracle for the C1 witness: every offset maps to SFB address 9. -/
def c1Otba : Nat → Option Nat := fun _ => some 9

/-- Concrete resource oracle for the C1 witness: no resource is open. -/
def c1GetRes : Nat → Option (Nat → Nat) := fun _ => none

/-- Concrete VMFS6 context for the C1 witness. -/
def c1Ctx : VMFSCtx6 := ⟨4, 3, 2, 10⟩

/-- Concrete file descriptor context for the C1 witness. -/
def c1Fd : FileDescCtx := ⟨1, 16, 4, 0, 0, 0⟩

/-- Witness for C1: the VMFS6 branch at a concrete SFB-backed file and offset. -/
theorem c1_resolve_offset_witness :
    ∃ block base, c1Otba 5 = some block
      ∧ blockBase6 c1Ctx c1GetRes c1Fd.blockOffsetShift block = some base
      ∧ (address_type block = 1 →
          5 = base + (5 &&& (2 ^ c1Ctx.fileBlockSizeShift - 1))
            ∧ 0 = (block >>> 7) &&& 0xFF)
      ∧ (address_type block = 7 →
          5 = base + (5 &&& (2 ^ c1Ctx.fileBlockSizeShift * 2 ^ c1Ctx.sfbToLfbShift - 1))
            ∧ 0 = (block >>> 7) &&& 0xFF)
      ∧ (address_type block = 2 →
          5 = base + (5 &&& (2 ^ c1Ctx.subBlockSizeShift - 1)) ∧ 0 = 0) :=
  c1_resolve_offset.2.1 c1Ctx c1Fd c1Otba c1GetRes 5 5 0 (by decide) rfl

/-! ## Block stream reads (src/dissect/vmfs/descriptor.py, BlockStream._read) -/

/-- `BlockStream._read`: loop over aligned spans.  The volume handle is modelled as a byte
oracle (`vol`), `_resolve_offset` as a resolve oracle; a zero block size (a division by
zero in the source) and a failing resolution yield `none`. -/
def blockStreamRead (blockSize : Nat) (resolve : Nat → Option (Nat × Nat))
    (vol : Nat → Nat) : Nat → Nat → Option (List Nat)
  | _, 0 => some []
  | offset, length + 1 =>
    if hbs : blockSize = 0 then none
    else
      let readLength := min (length + 1) (blockSize - offset % blockSize)
      match resolve offset with
      | none => none
      | some (readOffset, tbz) =>
        let span := if tbz ≠ 0 then List.replicate readLength 0
          else (List.range readLength).map (fun i => vol (readOffset + i))
        (blockStreamRead blockSize resolve vol (offset + readLength)
          (length + 1 - readLength)).map (span ++ ·)
termination_by offset length => length
decreasing_by
  have := Nat.mod_lt offset (Nat.pos_of_ne_zero hbs)
  simp only [Nat.min_def]
  split
  all_goals omega

theorem blockStreamRead_succ (blockSize : Nat) (resolve : Nat → Option (Nat × Nat))
    (vol : Nat → Nat) (offset n readOffset tbz : Nat)
    (hbs : blockSize ≠ 0) (hres : resolve offset = some (readOffset, tbz)) :
    blockStreamRead blockSize resolve vol offset (n + 1)
      = (blockStreamRead blockSize resolve vol
          (offset + min (n + 1) (blockSize - offset % blockSize))
          (n + 1 - min (n + 1) (blockSize - offset % blockSize))).map
        ((if tbz ≠ 0 then List.replicate (min (n + 1) (blockSize - offset % blockSize)) 0
          else (List.range (min (n + 1) (blockSize - offset % blockSize))).map
            (fun i => vol (readOffset + i))) ++ ·) := by
  rw [blockStreamRead, dif_neg hbs, hres]

theorem blockStreamRead_length :
    ∀ (length : Nat) (blockSize : Nat) (resolve : Nat → Option (Nat × Nat))
      (vol : Nat → Nat) (offset : Nat) (r : List Nat), blockSize ≠ 0 →
      blockStreamRead blockSize resolve vol offset length = some r → r.length = length := by
  intro length
  induction length using Nat.strong_induction_on with
  | _ length ih =>
    match length with
    | 0 =>
      intro blockSize resolve vol offset r hbs h
      simp only [blockStreamRead, Option.some.injEq] at h
      subst h
      rfl
    | n + 1 =>
      intro blockSize resolve vol offset r hbs h
      cases hres : resolve offset with
      | none =>
        rw [blockStreamRead, dif_neg hbs, hres] at h
        simp at h
      | some p =>
        obtain ⟨ro, tz⟩ := p
        rw [blockStreamRead_succ blockSize resolve vol offset n ro tz hbs hres] at h
        have hmin : 0 < min (n + 1) (blockSize - offset % blockSize) := by
          have := Nat.mod_lt offset (Nat.pos_of_ne_zero hbs)
          omega
        cases hrec : blockStreamRead blockSize resolve vol
            (offset + min (n + 1) (blockSize - offset % blockSize))
            (n + 1 - min (n + 1) (blockSize - offset % blockSize)) with
        | none => rw [hrec] at h; simp at h
        | some rest =>
          rw [hrec] at h
          simp only [Option.map_some', Option.some.injEq] at h
          subst h
          have hlen := ih (n + 1 - min (n + 1) (blockSize - offset % blockSize))
            (by omega) blockSize resolve vol
            (offset + min (n + 1) (blockSize - offset % blockSize)) rest hbs hrec
          by_cases htz : tz ≠ 0
          · rw [if_pos htz]
            simp only [List.length_append, List.length_replicate, hlen]
            omega
          · rw [if_neg htz]
            simp only [List.length_append, List.length_map, List.length_range, hlen]
            omega

/-- C2: block stream reads loop over aligned spans of
`read_length = min(remaining, block_size - offset % block_size)`; a span whose resolved
tbz is non-zero contributes exactly `read_length` zero bytes regardless of the volume
bytes, a zero-tbz span contributes the `read_length` volume bytes at the resolved offset,
the result is the concatenation of the spans, and a completed read has exactly the
requested length. -/
theorem c2_block_stream_read :
    (∀ (blockSize : Nat) (resolve : Nat → Option (Nat × Nat)) (vol : Nat → Nat)
        (offset length readOffset tbz : Nat),
      0 < length → blockSize ≠ 0 → resolve offset = some (readOffset, tbz) → tbz ≠ 0 →
      blockStreamRead blockSize resolve vol offset length
        = (blockStreamRead blockSize resolve vol
            (offset + min length (blockSize - offset % blockSize))
            (length - min length (blockSize - offset % blockSize))).map
          (List.replicate (min length (blockSize - offset % blockSize)) 0 ++ ·))
    ∧ (∀ (blockSize : Nat) (resolve : Nat → Option (Nat × Nat)) (vol : Nat → Nat)
        (offset length readOffset tbz : Nat),
      0 < length → blockSize ≠ 0 → resolve offset = some (readOffset, tbz) → tbz = 0 →
      blockStreamRead blockSize resolve vol offset length
        = (blockStreamRead blockSize resolve vol
            (offset + min length (blockSize - offset % blockSize))
            (length - min length (blockSize - offset % blockSize))).map
          ((List.range (min length (blockSize - offset % blockSize))).map
            (fun i => vol (readOffset + i)) ++ ·))
    ∧ (∀ (blockSize : Nat) (resolve : Nat → Option (Nat × Nat)) (vol : Nat → Nat)
        (offset length : Nat) (r : List Nat), blockSize ≠ 0 →
      blockStreamRead blockSize resolve vol offset length = some r →
      r.length = length) := by
  refine ⟨?_, ?_, ?_⟩
  · intro blockSize resolve vol offset length readOffset tbz hpos hbs hres htbz
    match length, hpos with
    | n + 1, _ =>
      rw [blockStreamRead_succ blockSize resolve vol offset n readOffset tbz hbs hres,
        if_pos htbz]
  · intro blockSize resolve vol offset length readOffset tbz hpos hbs hres htbz
    match length, hpos with
    | n + 1, _ =>
      rw [blockStreamRead_succ blockSize resolve vol offset n readOffset tbz hbs hres,
        if_neg (by simp [htbz])]
  · intro blockSize resolve vol offset length r hbs h
    exact blockStreamRead_length length blockSize resolve vol offset r hbs h

/-- Concrete resolve oracle for the C2 witness: offsets below 4 resolve with tbz set. -/
def c2Resolve : Nat → Option (Nat × Nat) := fun offset =>
  some (100 + offset, if offset < 4 then 1 else 0)

/-- Concrete volume byte oracle for the C2 witness. -/
def c2Vol : Nat → Nat := fun i => i % 256

/-- Witness for C2: a TBZ span at a concrete offset and length. -/
theorem c2_block_stream_read_witness :
    blockStreamRead 4 c2Resolve c2Vol 0 6
      = (blockStreamRead 4 c2Resolve c2Vol (0 + min 6 (4 - 0 % 4))
          (6 - min 6 (4 - 0 % 4))).map (List.replicate (min 6 (4 - 0 % 4)) 0 ++ ·) :=
  c2_block_stream_read.1 4 c2Resolve c2Vol 0 6 100 1 (by norm_num) (by norm_num)
    (by norm_num [c2Resolve]) (by norm_num)

/-! ## Resource file offsets (src/dissect/vmfs/resource.py) -/

/-- The fields of `FS3_ResFileMetadata` used by the offset arithmetic. -/
structure ResFileMetadata where
  resourcesPerCluster : Nat
  clustersPerGroup : Nat
  clusterGroupOffset : Nat
  resourceSize : Nat
  clusterGroupSize : Nat
  flags : Nat
  parentResourcesPerCluster : Nat
  parentClustersPerGroup : Nat
  parentClusterGroupSize : Nat
deriving DecidableEq, Repr

namespace ResourceFile

/-- `ResourceFile._resource_offset`: the byte offset of a resource inside the arena file,
used by `_resource_offset_from_address` for both `read` and `resolve_address`.
`chs` is the derived `_cluster_header_size` (1024 on VMFS5, twice the metadata alignment
on VMFS6). -/
def resource_offset (md : ResFileMetadata) (chs cluster resource : Nat) : Nat :=
  let group := cluster / md.clustersPerGroup
  let cluster_in_group := cluster % md.clustersPerGroup
  md.clusterGroupOffset
    + group * md.clusterGroupSize
    + cluster_in_group * (md.resourcesPerCluster * md.resourceSize)
    + md.clustersPerGroup * chs
    + resource * md.resourceSize

/-- `ResourceFile._cluster_group_offset`: the byte offset of a cluster group, with the
child-arena branch for VMFS6 arenas whose metadata has flag 0x2 set. -/
def cluster_group_offset (md : ResFileMetadata) (isVmfs5 : Bool) (chs group : Nat) : Nat :=
  if isVmfs5 = true ∨ (isVmfs5 = false ∧ md.flags &&& 2 = 0) then
    md.clusterGroupOffset + group * md.clusterGroupSize
  else
    let parent_resources_per_group :=
      md.parentClustersPerGroup * md.parentResourcesPerCluster / md.clustersPerGroup
    let parent_group := group / parent_resources_per_group
    let parent_cluster_in_group := group % parent_resources_per_group
    md.clusterGroupOffset
      + parent_group * md.parentClusterGroupSize
      + md.parentClustersPerGroup * chs
      + parent_cluster_in_group * md.clusterGroupSize

end ResourceFile

/-- The claim's non-child offset formula, written as in the specification. -/
def claimResourceOffset (md : ResFileMetadata) (chs cluster resource : Nat) : Nat :=
  md.clusterGroupOffset
    + (cluster / md.clustersPerGroup) * md.clusterGroupSize
    + md.clustersPerGroup * chs
    + (cluster % md.clustersPerGroup) * (md.resourcesPerCluster * md.resourceSize)
    + resource * md.resourceSize

/-- The claim's child-arena offset formula: the non-child formula extended with the
`parent_group * parentClusterGroupSize + parentClustersPerGroup * cluster_header_size`
prefix, the cluster group being located inside its parent cluster group. -/
def claimChildResourceOffset (md : ResFileMetadata) (chs cluster resource : Nat) : Nat :=
  let parent_resources_per_group :=
    md.parentClustersPerGroup * md.parentResourcesPerCluster / md.clustersPerGroup
  let group := cluster / md.clustersPerGroup
  md.clusterGroupOffset
    + (group / parent_resources_per_group) * md.parentClusterGroupSize
    + md.parentClustersPerGroup * chs
    + (group % parent_resources_per_group) * md.clusterGroupSize
    + md.clustersPerGroup * chs
    + (cluster % md.clustersPerGroup) * (md.resourcesPerCluster * md.resourceSize)
    + resource * md.resourceSize

/-- C5 (amended): the byte offset used to read or resolve a resource is the non-child
formula for every arena - `_resource_offset` never applies the child-arena prefix, even
when metadata flag 0x2 is set; the child-aware arithmetic exists only in
`_cluster_group_offset`, which the read/resolve path does not call. -/
theorem c5_resource_offset :
    (∀ (md : ResFileMetadata) (chs cluster resource : Nat),
      ResourceFile.resource_offset md chs cluster resource
        = claimResourceOffset md chs cluster resource)
    ∧ (∀ (md : ResFileMetadata) (chs cluster resource : Nat), md.flags &&& 2 ≠ 0 →
      ResourceFile.resource_offset md chs cluster resource
        = claimResourceOffset md chs cluster resource)
    ∧ (∀ (md : ResFileMetadata) (chs group : Nat), md.flags &&& 2 ≠ 0 →
      ResourceFile.cluster_group_offset md false chs group
        = md.clusterGroupOffset
          + (group / (md.parentClustersPerGroup * md.parentResourcesPerCluster
              / md.clustersPerGroup)) * md.parentClusterGroupSize
          + md.parentClustersPerGroup * chs
          + (group % (md.parentClustersPerGroup * md.parentResourcesPerCluster
              / md.clustersPerGroup)) * md.clusterGroupSize) := by
  refine ⟨?_, ?_, ?_⟩
  · intro md chs cluster resource
    simp only [ResourceFile.resource_offset, claimResourceOffset]
    omega
  · intro md chs cluster resource _
    simp only [ResourceFile.resource_offset, claimResourceOffset]
    omega
  · intro md chs group hflags
    unfold ResourceFile.cluster_group_offset
    rw [if_neg (by simp [hflags])]

/-- Child-arena metadata for the C5 counterexample: flag 0x2 set. -/
def c5Metadata : ResFileMetadata :=
  ⟨4, 2, 0, 10, 100, 2, 2, 4, 1000⟩

/-- Counterexample for C5 as stated: for a child arena (flags & 0x2 set) the offset used
to read or resolve a resource is still the plain formula (4 for cluster 0, resource 0),
not the claim's child-extended formula (12): the prefix
`parentClustersPerGroup * cluster_header_size` is never added. -/
theorem c5_child_offset_counterexample :
    c5Metadata.flags &&& 2 ≠ 0
      ∧ ResourceFile.resource_offset c5Metadata 2 0 0 = 4
      ∧ claimChildResourceOffset c5Metadata 2 0 0 = 12 :=
  ⟨by decide, rfl, rfl⟩

/-- Witness for C5 at concrete child-arena metadata. -/
theorem c5_resource_offset_witness :
    ResourceFile.resource_offset c5Metadata 2 5 1 = claimResourceOffset c5Metadata 2 5 1 :=
  c5_resource_offset.2.1 c5Metadata 2 5 1 (by decide)

/-! ## VMFS6 directory name hashing (src/dissect/vmfs/descriptor.py) -/

/-- Byte `k` of the 8-byte little-endian encoding of the hash salt
`0x739A75C28E61B017`. -/
def saltByte : Nat → Nat
  | 0 => 0x17
  | 1 => 0xB0
  | 2 => 0x61
  | 3 => 0x8E
  | 4 => 0xC2
  | 5 => 0x75
  | 6 => 0x9A
  | 7 => 0x73
  | _ => 0

/-- `key[i : i + 8] = _HASH_SALT`, on a byte buffer modelled as a function. -/
def writeSaltChunk (key : Nat → Nat) (i : Nat) : Nat → Nat :=
  fun j => if i ≤ j ∧ j < i + 8 then saltByte (j - i) else key j

/-- `for i in range(rounded_len, 127, 8): key[i : i + 8] = _HASH_SALT`. -/
def saltLoop (key : Nat → Nat) (i : Nat) : Nat → Nat :=
  if i < 127 then saltLoop (writeSaltChunk key i) (i + 8) else key
termination_by 127 - i

/-- `key = bytearray(256); key[: len(name_raw)] = name_raw`. -/
def initKey (name : List Nat) : Nat → Nat :=
  fun j => if j < name.length then name.getD j 0 else 0

/-- The hard-coded `(link_hash, hash_idx)` pairs for the ten system file names
(`_SYSTEM_FILE_HASHES`). -/
def SYSTEM_FILE_HASHES : List (List Nat × (Nat × Nat)) :=
  [([0x2E, 0x66, 0x62, 0x62, 0x2E, 0x73, 0x66], (0x3E66, 0x3E66)),
   ([0x2E, 0x66, 0x64, 0x63, 0x2E, 0x73, 0x66], (0x3E67, 0x3E67)),
   ([0x2E, 0x70, 0x62, 0x63, 0x2E, 0x73, 0x66], (0x3E68, 0x3E68)),
   ([0x2E, 0x73, 0x62, 0x63, 0x2E, 0x73, 0x66], (0x3E69, 0x3E69)),
   ([0x2E, 0x76, 0x68, 0x2E, 0x73, 0x66], (0x3E6A, 0x3E6A)),
   ([0x2E, 0x70, 0x62, 0x32, 0x2E, 0x73, 0x66], (0x3E6B, 0x3E6B)),
   ([0x2E, 0x73, 0x64, 0x64, 0x2E, 0x73, 0x66], (0x3E6C, 0x3E6C)),
   ([0x2E, 0x6A, 0x62, 0x63, 0x2E, 0x73, 0x66], (0x3E6D, 0x3E6D)),
   ([0x2E, 0x75, 0x6E, 0x6D, 0x61, 0x70, 0x2E, 0x73, 0x66], (0x3E6E, 0x3E6E)),
   ([0x2E, 0x64, 0x66, 0x64, 0x2E, 0x73, 0x66], (0x3E6F, 0x3E6F))]

/-- `name in _SYSTEM_FILE_HASHES` lookup. -/
def lookupSystem (name : List Nat) : Option (Nat × Nat) :=
  (SYSTEM_FILE_HASHES.find? (fun p => p.1 == name)).map (·.2)

/-- `FS6_DIR_HASH_MAX_ENTRIES`. -/
def FS6_DIR_HASH_MAX_ENTRIES : Nat := 16001

/-- `FS6_DIR_HASH_MAX_ROOT_ENTRIES`. -/
def FS6_DIR_HASH_MAX_ROOT_ENTRIES : Nat := 16001 - 28

/-- `_dir_name_hash`, with the external `lookup8_quads` hash from dissect.util
abstracted as an oracle over the 256-byte key and the seed. -/
def dir_name_hash (lookup8_quads : (Nat → Nat) → Nat → Nat) (name : List Nat)
    (in_root : Bool) : Nat × Nat :=
  match (if in_root then lookupSystem name else none) with
  | some p => p
  | none =>
    let key := initKey name
    let rounded_len := (name.length + 8) &&& 0xFFF8
    let key := saltLoop key rounded_len
    let result := lookup8_quads key 42
    ((result >>> 16) &&& 0xFFFF,
      result % (if in_root then FS6_DIR_HASH_MAX_ROOT_ENTRIES else FS6_DIR_HASH_MAX_ENTRIES))

/-- The claim's description of `_dir_name_hash`: the hard-coded pair for system names in
the root, otherwise hash a 256-byte key holding the name followed by 8-byte repeats of the
salt at offsets `(len + 8) & ~7, +8, ...` up to offset 128 (zero elsewhere), and return
`(h >> 16) & 0xFFFF` and `h mod max_entries`, with `max_entries = 16001 - 28` at the root
and `16001` elsewhere. -/
def dirNameHashSpec (lookup8_quads : (Nat → Nat) → Nat → Nat) (name : List Nat)
    (in_root : Bool) : Nat × Nat :=
  match (if in_root then lookupSystem name else none) with
  | some p => p
  | none =>
    let r := name.length + 8 - (name.length + 8) % 8
    let key : Nat → Nat := fun j =>
      if j < name.length then name.getD j 0
      else if r ≤ j ∧ j < 128 then saltByte (j % 8)
      else 0
    let result := lookup8_quads key 42
    ((result >>> 16) &&& 0xFFFF, result % (if in_root then 16001 - 28 else 16001))

/-- Distributing a mask-and-shift over a bitwise and. -/
theorem and_shiftLeft_mask (x m s : Nat) : x &&& (m <<< s) = ((x >>> s) &&& m) <<< s := by
  apply Nat.eq_of_testBit_eq
  intro j
  simp only [Nat.testBit_and, Nat.testBit_shiftLeft, Nat.testBit_shiftRight]
  by_cases hj : s ≤ j
  · have : s + (j - s) = j := by omega
    simp [ge_iff_le, hj, this, Bool.and_left_comm, Bool.and_comm]
  · simp [ge_iff_le, hj]

/-- The source's `(len + 8) & 0xFFF8` equals the claim's round-down to a multiple of 8,
for name lengths in range. -/
theorem rounded_len_eq (L : Nat) (h : L ≤ 127) :
    (L + 8) &&& 0xFFF8 = L + 8 - (L + 8) % 8 := by
  rw [show (0xFFF8 : Nat) = 0x1FFF <<< 3 from rfl, and_shiftLeft_mask]
  rw [Nat.shiftLeft_eq, Nat.shiftRight_eq_div_pow]
  rw [show (0x1FFF : Nat) = 2 ^ 13 - 1 from by norm_num, Nat.and_pow_two_sub_one_eq_mod]
  norm_num
  omega

theorem saltLoop_spec :
    ∀ (n : Nat) (key : Nat → Nat) (i : Nat), 127 - i ≤ n → i % 8 = 0 →
      saltLoop key i = fun j => if i ≤ j ∧ j < 128 then saltByte ((j - i) % 8) else key j := by
  intro n
  induction n with
  | zero =>
    intro key i hle hmod
    rw [saltLoop, if_neg (by omega)]
    funext j
    rw [if_neg (by omega)]
  | succ n ih =>
    intro key i hle hmod
    by_cases hi : i < 127
    · rw [saltLoop, if_pos hi]
      rw [ih (writeSaltChunk key i) (i + 8) (by omega) (by omega)]
      funext j
      unfold writeSaltChunk
      by_cases h1 : i + 8 ≤ j ∧ j < 128
      · rw [if_pos h1, if_pos (by omega)]
        congr 1
        omega
      · rw [if_neg h1]
        by_cases h2 : i ≤ j ∧ j < i + 8
        · rw [if_pos h2, if_pos (by omega)]
          congr 1
          omega
        · rw [if_neg h2, if_neg (by omega)]
    · rw [saltLoop, if_neg hi]
      funext j
      rw [if_neg (by omega)]

/-- C6: for every name of at most 127 bytes, `_dir_name_hash` behaves exactly as the
claim describes: the hard-coded pair for system names in the root, and the
salt-padded-key hash with the claimed post-processing otherwise. -/
theorem c6_dir_name_hash :
    ∀ (lookup8_quads : (Nat → Nat) → Nat → Nat) (name : List Nat) (in_root : Bool),
      name.length ≤ 127 →
      dir_name_hash lookup8_quads name in_root = dirNameHashSpec lookup8_quads name in_root := by
  intro f name in_root hlen
  unfold dir_name_hash dirNameHashSpec
  cases hsys : (if in_root then lookupSystem name else none) with
  | some p => rfl
  | none =>
    have hkey : saltLoop (initKey name) ((name.length + 8) &&& 0xFFF8)
        = fun j => if j < name.length then name.getD j 0
            else if name.length + 8 - (name.length + 8) % 8 ≤ j ∧ j < 128 then saltByte (j % 8)
            else 0 := by
      rw [rounded_len_eq name.length hlen]
      set r := name.length + 8 - (name.length + 8) % 8 with hr
      have hrmod : r % 8 = 0 := by omega
      rw [saltLoop_spec 127 (initKey name) r (by omega) hrmod]
      funext j
      unfold initKey
      by_cases h1 : r ≤ j ∧ j < 128
      · rw [if_pos h1, if_neg (by omega), if_pos h1]
        congr 1
        omega
      · rw [if_neg h1]
        by_cases h2 : j < name.length
        · rw [if_pos h2, if_pos h2]
        · rw [if_neg h2, if_neg h2, if_neg h1]
    dsimp only
    rw [hkey]
    rfl

/-- Witness for C6 at a one-byte name and at a system file name in the root. -/
theorem c6_dir_name_hash_witness :
    dir_name_hash (fun _ _ => 0) [0x61] false = dirNameHashSpec (fun _ _ => 0) [0x61] false
      ∧ dir_name_hash (fun _ _ => 0) [0x2E, 0x66, 0x62, 0x62, 0x2E, 0x73, 0x66] true
        = dirNameHashSpec (fun _ _ => 0) [0x2E, 0x66, 0x62, 0x62, 0x2E, 0x73, 0x66] true :=
  ⟨c6_dir_name_hash (fun _ _ => 0) [0x61] false (by decide),
   c6_dir_name_hash (fun _ _ => 0) [0x2E, 0x66, 0x62, 0x62, 0x2E, 0x73, 0x66] true (by decide)⟩

/-! ## VMFS6 directory link chains (src/dissect/vmfs/descriptor.py) -/

/-- `FS6_DirLinkGroup`, with the 12-entry link array as a list of
`(location, hash)` pairs. -/
structure DirLinkGroup where
  hashIndex : Nat
  totalLinks : Nat
  freeLinks : Nat
  links : List (Nat × Nat)
  nextGroup : Nat
deriving DecidableEq, Repr

/-- `_dir_parse_location`: split a 32-bit location into (type, block, slot). -/
def dir_parse_location (pointer : Nat) : Nat × Nat × Nat :=
  (pointer &&& 3, (pointer >>> 2) &&& 0x3FFFFF, pointer >>> 24)

/-- The failure modes of `_dir_link_resolve`: the `KeyError` on a hash-index mismatch
(turned into `FileNotFound` by the caller), and the `IndexError` raised when
`totalLinks - freeLinks` exceeds the link array. -/
inductive LinkErr where
  | keyError
  | indexError
deriving DecidableEq, Repr

/-- The link scan of `_dir_link_resolve`: the first `n` links are examined in order and
the first one whose hash matches is returned; indexing past the array raises. -/
def scanLinks : List (Nat × Nat) → Nat → Nat → Except Unit (Option Nat)
  | _, 0, _ => .ok none
  | [], _ + 1, _ => .error ()
  | (location, hash) :: rest, n + 1, link_hash =>
    if hash = link_hash then .ok (some location) else scanLinks rest n link_hash

/-- `_dir_link_resolve`, with the directory buffer abstracted as a map from
`(block, slot)` to the link group stored there. -/
def dir_link_resolve (groups : Nat → Nat → DirLinkGroup)
    (block slot hash_idx link_hash : Nat) : Except LinkErr (Nat × Nat × Nat) :=
  let link_group := groups block slot
  if link_group.hashIndex ≠ hash_idx then .error .keyError
  else
    match scanLinks link_group.links (link_group.totalLinks - link_group.freeLinks)
        link_hash with
    | .error _ => .error .indexError
    | .ok (some location) => .ok (dir_parse_location location)
    | .ok none => .ok (dir_parse_location link_group.nextGroup)

/-- The link-resolution loop of `FileDescriptor6._get`
(`while type == LINK: type, block, slot = _dir_link_resolve(...)`), instrumented with a
fuel counter: the source loop has no iteration guard, so exhausting any amount of fuel
(`none`) witnesses non-termination. -/
def linkWalk (groups : Nat → Nat → DirLinkGroup) (hash_idx link_hash : Nat)
    (loc : Nat × Nat × Nat) (fuel : Nat) : Option (Except LinkErr (Nat × Nat × Nat)) :=
  if loc.1 ≠ 2 then some (.ok loc)
  else
    match fuel with
    | 0 => none
    | fuel + 1 =>
      match dir_link_resolve groups loc.2.1 loc.2.2 hash_idx link_hash with
      | .error e => some (.error e)
      | .ok next => linkWalk groups hash_idx link_hash next fuel

/-- The walk never terminates from the given location, whatever the iteration budget. -/
def walkNeverTerminates (groups : Nat → Nat → DirLinkGroup)
    (hash_idx link_hash : Nat) (loc : Nat × Nat × Nat) : Prop :=
  ∀ fuel, linkWalk groups hash_idx link_hash loc fuel = none

/-- A malformed directory: every link group is empty, matches hash index 0 and chains to
location 2, i.e. LINK type, block 0, slot 0 - a self-loop. -/
def cyclicGroups : Nat → Nat → DirLinkGroup := fun _ _ => ⟨0, 0, 0, [], 2⟩

/-- Counterexample for C7 as stated: the link-chain walk of `_get` has no iteration
guard, and on this malformed self-referential chain it never terminates. -/
theorem c7_no_guard_counterexample : walkNeverTerminates cyclicGroups 0 0 (2, 0, 0) := by
  intro fuel
  induction fuel with
  | zero => rfl
  | succ n ih =>
    rw [linkWalk]
    simpa [dir_link_resolve, cyclicGroups, scanLinks, dir_parse_location] using ih

theorem scanLinks_eq :
    ∀ (links : List (Nat × Nat)) (n lh : Nat), n ≤ links.length →
      scanLinks links n lh
        = .ok (((links.take n).find? (fun l => l.2 == lh)).map (·.1)) := by
  intro links
  induction links with
  | nil =>
    intro n lh h
    cases n with
    | zero => rfl
    | succ n => simp at h
  | cons l rest ih =>
    intro n lh h
    cases n with
    | zero => rfl
    | succ n =>
      obtain ⟨location, hash⟩ := l
      by_cases he : hash = lh
      · simp [scanLinks, he]
      · simp only [scanLinks, if_neg he, List.take_succ_cons, List.find?_cons]
        rw [ih n lh (by simpa using h)]
        have : ((location, hash).2 == lh) = false := by simpa using he
        simp [this]

/-- The chain from the given location reaches a non-LINK location or an error within the
given number of steps. -/
def reachesTerminal (groups : Nat → Nat → DirLinkGroup) (hash_idx link_hash : Nat) :
    Nat → Nat × Nat × Nat → Prop
  | 0, loc => loc.1 ≠ 2
  | n + 1, loc => loc.1 ≠ 2
      ∨ (match dir_link_resolve groups loc.2.1 loc.2.2 hash_idx link_hash with
        | .error _ => True
        | .ok next => reachesTerminal groups hash_idx link_hash n next)

theorem linkWalk_of_reachesTerminal (groups : Nat → Nat → DirLinkGroup)
    (hash_idx link_hash : Nat) :
    ∀ (n : Nat) (loc : Nat × Nat × Nat), reachesTerminal groups hash_idx link_hash n loc →
      (linkWalk groups hash_idx link_hash loc n).isSome := by
  intro n
  induction n with
  | zero =>
    intro loc hr
    have hr2 : loc.1 ≠ 2 := hr
    rw [linkWalk, if_pos hr2]
    rfl
  | succ n ih =>
    intro loc hr
    by_cases hloc : loc.1 ≠ 2
    · rw [linkWalk, if_pos hloc]
      rfl
    · rw [linkWalk, if_neg hloc]
      cases hres : dir_link_resolve groups loc.2.1 loc.2.2 hash_idx link_hash with
      | error e => rfl
      | ok next =>
        apply ih
        rcases hr with hr | hr
        · exact absurd hr hloc
        · rw [hres] at hr
          exact hr

theorem linkWalk_mono (groups : Nat → Nat → DirLinkGroup) (hash_idx link_hash : Nat) :
    ∀ (n : Nat) (loc : Nat × Nat × Nat) (r : Except LinkErr (Nat × Nat × Nat)),
      linkWalk groups hash_idx link_hash loc n = some r →
      ∀ m, n ≤ m → linkWalk groups hash_idx link_hash loc m = some r := by
  intro n
  induction n with
  | zero =>
    intro loc r h m _
    rw [linkWalk.eq_def] at h
    by_cases hloc : loc.1 ≠ 2
    · rw [if_pos hloc] at h
      rw [linkWalk.eq_def, if_pos hloc]
      exact h
    · rw [if_neg hloc] at h
      replace h : (none : Option (Except LinkErr (Nat × Nat × Nat))) = some r := h
      simp at h
  | succ n ih =>
    intro loc r h m hnm
    by_cases hloc : loc.1 ≠ 2
    · rw [linkWalk.eq_def, if_pos hloc] at h
      rw [linkWalk.eq_def, if_pos hloc]
      exact h
    · rw [linkWalk.eq_def, if_neg hloc] at h
      replace h : (match dir_link_resolve groups loc.2.1 loc.2.2 hash_idx link_hash with
        | .error e => some (.error e)
        | .ok next => linkWalk groups hash_idx link_hash next n) = some r := h
      match m, hnm with
      | m + 1, _ =>
        rw [linkWalk.eq_def, if_neg hloc]
        show (match dir_link_resolve groups loc.2.1 loc.2.2 hash_idx link_hash with
          | .error e => some (.error e)
          | .ok next => linkWalk groups hash_idx link_hash next m) = some r
        cases hres : dir_link_resolve groups loc.2.1 loc.2.2 hash_idx link_hash with
        | error e =>
          rw [hres] at h
          exact h
        | ok next =>
          rw [hres] at h
          exact ih next r h m (by omega)

/-- C7 (amended): within each step of the link walk, a hash-index mismatch fails with the
KeyError that `_get` turns into FileNotFound, the first `totalLinks - freeLinks` links
are scanned in order for `hash == link_hash`, and with no match the walk continues at
`nextGroup`; the walk stops as soon as a non-LINK location is reached, and terminates
whenever the chain reaches a non-LINK location or an error within finitely many steps
(the result being stable under any larger iteration budget).  The code has no iteration
guard, so a malformed cyclic chain loops forever. -/
theorem c7_link_walk :
    (∀ (groups : Nat → Nat → DirLinkGroup) (block slot hash_idx link_hash : Nat),
      ((groups block slot).hashIndex ≠ hash_idx →
        dir_link_resolve groups block slot hash_idx link_hash = .error .keyError)
      ∧ ((groups block slot).hashIndex = hash_idx →
          (groups block slot).totalLinks - (groups block slot).freeLinks
            ≤ (groups block slot).links.length →
          dir_link_resolve groups block slot hash_idx link_hash
            = match ((groups block slot).links.take
                ((groups block slot).totalLinks - (groups block slot).freeLinks)).find?
                (fun l => l.2 == link_hash) with
              | some l => .ok (dir_parse_location l.1)
              | none => .ok (dir_parse_location (groups block slot).nextGroup)))
    ∧ (∀ (groups : Nat → Nat → DirLinkGroup) (hash_idx link_hash n : Nat)
        (loc : Nat × Nat × Nat),
      reachesTerminal groups hash_idx link_hash n loc →
      (linkWalk groups hash_idx link_hash loc n).isSome)
    ∧ (∀ (groups : Nat → Nat → DirLinkGroup) (hash_idx link_hash n : Nat)
        (loc : Nat × Nat × Nat) (r : Except LinkErr (Nat × Nat × Nat)),
      linkWalk groups hash_idx link_hash loc n = some r →
      ∀ m, n ≤ m → linkWalk groups hash_idx link_hash loc m = some r)
    ∧ (∀ (groups : Nat → Nat → DirLinkGroup) (hash_idx link_hash fuel : Nat)
        (loc : Nat × Nat × Nat),
      loc.1 ≠ 2 → linkWalk groups hash_idx link_hash loc fuel = some (.ok loc)) := by
  refine ⟨?_, ?_, ?_, ?_⟩
  · intro groups block slot hash_idx link_hash
    constructor
    · intro hne
      simp only [dir_link_resolve]
      rw [if_pos hne]
    · intro heq hlen
      simp only [dir_link_resolve]
      rw [if_neg (by simp [heq]), scanLinks_eq _ _ _ hlen]
      cases hf : ((groups block slot).links.take
          ((groups block slot).totalLinks - (groups block slot).freeLinks)).find?
          (fun l => l.2 == link_hash) with
      | some l => rfl
      | none => rfl
  · exact fun groups hash_idx link_hash n loc =>
      linkWalk_of_reachesTerminal groups hash_idx link_hash n loc
  · exact fun groups hash_idx link_hash n loc r =>
      linkWalk_mono groups hash_idx link_hash n loc r
  · intro groups hash_idx link_hash fuel loc hloc
    rw [linkWalk.eq_def, if_pos hloc]

/-- A concrete link-group map for the C7 witness. -/
def c7Groups : Nat → Nat → DirLinkGroup := fun _ _ =>
  ⟨7, 2, 1, [(0x123, 5), (0x456, 9)], 0⟩

/-- Witness for C7 at a concrete link group: a hash-index mismatch fails with KeyError,
and a non-LINK location stops the walk immediately. -/
theorem c7_link_walk_witness :
    dir_link_resolve c7Groups 0 0 3 5 = .error .keyError
      ∧ linkWalk c7Groups 3 5 (1, 4, 2) 0 = some (.ok (1, 4, 2)) :=
  ⟨(c7_link_walk.1 c7Groups 0 0 3 5).1 (by decide),
   c7_link_walk.2.2.2 c7Groups 3 5 0 (1, 4, 2) (by decide)⟩
